import Mathlib

/-!
# Verification of the drill-board real-time state engine

A shallow embedding of the state store, pad-queue engine, timer model,
undo stack, audit log, messaging channels and durable-load sanitization
of the competition-queue board server (`pages/api/socket.ts`,
`lib/state.ts`, `lib/roster.ts`, `lib/commPersistence.ts`,
`pages/api/reload-roster.ts`), together with proofs and refutations of
the specified properties.

Embedding conventions:
* Millisecond timestamps are `Nat`; numeric payload fields that the code
  passes through `Number(...)` are `Rat` (every representable value is
  finite; absent or non-numeric payload fields are `none`).
* TypeScript fields that are optional and/or nullable become `Option _`;
  `undefined` and `null` collapse to `none` (the code only distinguishes
  them through `??` and truthiness, which agree on both).
* The per-pad undo stacks store the newest snapshot first (the source
  pushes and pops at the array end; the order of pop-after-push is the
  same). Deep copies are identities on pure values.
* The random `uid()` of the source is modelled by a deterministic
  fresh-name counter threaded through the server state.
* The `(G.boardState as any).audit = G.audit` mirror that `pushAudit`
  maintains for client convenience is not part of the `BoardState`
  record; the audit log lives in `ServerState.audit`.
-/

namespace DrillBoard

/-- Model of JavaScript `.trim()` (kernel-reducible equivalent of
`String.trim`). -/
def jsTrim (s : String) : String :=
  ⟨((s.data.dropWhile (·.isWhitespace)).reverse.dropWhile (·.isWhitespace)).reverse⟩

/-- Model of `.toUpperCase()`. -/
def jsToUpper (s : String) : String := ⟨s.data.map Char.toUpper⟩

/-- Model of `.toLowerCase()`. -/
def jsToLower (s : String) : String := ⟨s.data.map Char.toLower⟩

/-- Insert into a sorted list after every element `y` with `le y x`
(auxiliary for the stable sort below). -/
def sortInsert (le : α → α → Bool) (x : α) : List α → List α
  | [] => [x]
  | y :: ys => if le y x then y :: sortInsert le x ys else x :: y :: ys

/-- Stable sort, modelling the engine's stable `Array.prototype.sort`. -/
def stableSort (le : α → α → Bool) (l : List α) : List α :=
  l.foldl (fun acc x => sortInsert le x acc) []

/-- JavaScript truthiness of an optional number (`!!x`): absent, `null`
and `0` are falsy. -/
def truthyNat : Option Nat → Bool
  | none => false
  | some n => n != 0

/-- JavaScript truthiness of an optional string: absent, `null` and the
empty string are falsy. -/
def truthyStr : Option String → Bool
  | none => false
  | some s => s != ""

/-- `lib/state.ts` `Team` (the `division` union is kept as its string
values, as the handlers compare against the literals). -/
structure Team where
  id : String
  name : String
  unit : Option String := none
  division : Option String := none
  category : Option String := none
  tag : Option String := none
deriving Repr, DecidableEq

/-- `lib/state.ts` `PadStatus`. -/
inductive PadStatus where
  | IDLE | REPORTING | ON_PAD | RUNNING | HOLD | BREAK
deriving Repr, DecidableEq

/-- `lib/state.ts` `ScheduleEvent` (`type` and `scope` kept as strings,
as the code compares string literals). -/
structure ScheduleEvent where
  id : String
  title : String
  type : String
  scope : String
  padIds : Option (List Int) := none
  startAt : Nat
  endAt : Nat
  notes : Option String := none
  affectedCategories : Option (List String) := none
  createdAt : Option Nat := none
  updatedAt : Option Nat := none
deriving Repr, DecidableEq

/-- `lib/state.ts` `CycleStats`; the floating-point rolling average is
embedded as an exact rational. -/
structure CycleStats where
  count : Nat
  avgSec : Rat
  lastSec : Option Rat := none
  updatedAt : Nat
deriving Repr, DecidableEq

/-- `lib/state.ts` `Pad`. -/
structure Pad where
  id : Nat
  name : String
  label : String
  now : Option Team
  onDeck : Option Team
  standby : List Team
  note : String
  nowArrivedAt : Option Nat
  nowArrivedTeamId : Option String
  lastCompleteAt : Option Nat
  reportByDeadlineAt : Option Nat
  reportByTeamId : Option String
  status : Option PadStatus := none
  breakUntilAt : Option Nat := none
  breakReason : Option String := none
  breakStartAt : Option Nat := none
  runStartedAt : Option Nat := none
  lastRunEndedAt : Option Nat := none
  message : Option String := none
  messageUntilAt : Option Nat := none
  updatedAt : Nat
deriving Repr, DecidableEq

/-- `lib/state.ts` `EventStatus`. -/
inductive EventStatus where
  | PLANNING | LIVE
deriving Repr, DecidableEq

/-- `lib/state.ts` `BoardState`. The `Record` fields become association
lists (key order = insertion order, as JavaScript object keys). -/
structure BoardState where
  eventHeaderLabel : Option String := none
  eventStatus : Option EventStatus := none
  eventStartAt : Option Nat := none
  eventPaused : Option Bool := none
  eventPausedAt : Option Nat := none
  eventPausedAccumMs : Option Nat := none
  pads : List Pad
  nextPadId : Nat
  updatedAt : Nat
  globalBreakStartAt : Option Nat := none
  globalBreakUntilAt : Option Nat := none
  globalBreakReason : Option String := none
  globalMessage : Option String := none
  globalMessageUntilAt : Option Nat := none
  schedule : Option (List ScheduleEvent) := none
  scheduleUpdatedAt : Option Nat := none
  cycleStatsByPad : Option (List (Nat × CycleStats)) := none
  cycleStatsByKey : Option (List (String × CycleStats)) := none
  avgCycleSecondsByPad : Option (List (Nat × Rat)) := none
deriving Repr, DecidableEq

/-- `pages/api/socket.ts` `AuditEntry`. -/
structure AuditEntry where
  id : String
  ts : Nat
  padId : Option Int
  action : String
  detail : String
deriving Repr, DecidableEq

/-- `pages/api/socket.ts` `ChatMessage` (runtime messages; `urgent` is
set to `true` or left absent by the senders, and may be an explicit
`false` on messages read back from durable storage). -/
structure ChatMessage where
  id : String
  ts : Nat
  from_ : String
  text : String
  urgent : Option Bool := none
  ackedAt : Option Nat := none
deriving Repr, DecidableEq

/-- The verified role claim attached to a connection (derived from the
HMAC-signed cookie in the `io.use` middleware; invalid or missing maps
to `public`). -/
inductive Role where
  | admin | judge | public
deriving Repr, DecidableEq

/-- The per-connection `socket.data`: the immutable role plus the comm
pad binding that `comm:joinPad` establishes. -/
structure SockData where
  role : Role
  padId : Option Int := none
deriving Repr, DecidableEq

/-- The process-wide globals the handlers mutate: `G.boardState`,
`G.padHistory` (per-pad undo stacks, newest snapshot first), `G.audit`,
`G.commChannels`, plus the fresh-uid counter that models `uid()`. -/
structure ServerState where
  boardState : BoardState
  padHistory : List (Int × List BoardState)
  audit : List AuditEntry
  uidCounter : Nat
  commChannels : List (Int × List ChatMessage)
deriving Repr, DecidableEq

/-- Deterministic model of the source's random `uid()`. -/
def uid (n : Nat) : String := "uid-" ++ toString n

/-- Association-list read with a default, mirroring `map[k] ?? dflt`. -/
def alistGet [BEq κ] (l : List (κ × α)) (k : κ) (dflt : α) : α :=
  match l.find? (fun kv => kv.1 == k) with
  | some kv => kv.2
  | none => dflt

/-- Association-list read (no default). -/
def alistGet? [BEq κ] (l : List (κ × α)) (k : κ) : Option α :=
  (l.find? (fun kv => kv.1 == k)).map (·.2)

/-- Association-list write, mirroring `map[k] = v` (updates the first
binding in place, else appends). -/
def alistSet [BEq κ] (l : List (κ × α)) (k : κ) (v : α) : List (κ × α) :=
  match l with
  | [] => [(k, v)]
  | kv :: rest =>
      if kv.1 == k then (k, v) :: rest else kv :: alistSet rest k v

/-- Association-list key removal, mirroring `delete map[k]`. -/
def alistDel [BEq κ] (l : List (κ × α)) (k : κ) : List (κ × α) :=
  l.filter (fun kv => !(kv.1 == k))

/-- `REPORT_WINDOW_MS = 5 * 60 * 1000`. -/
def REPORT_WINDOW_MS : Nat := 5 * 60 * 1000

/-- `MAX_AUDIT = 800`. -/
def MAX_AUDIT : Nat := 800

/-- `MAX_UNDO_PER_PAD = 35`. -/
def MAX_UNDO_PER_PAD : Nat := 35

/-- `MAX_CHAT_PER_PAD = 220`. -/
def MAX_CHAT_PER_PAD : Nat := 220

/-- `resolvePadId`: first present of `payload.padId ?? payload.id ??
payload.pad`, coerced by `Number(...)` and floored. Payload fields that
are absent or do not coerce to a finite number are `none`. -/
structure PadIdPayload where
  padId : Option Rat := none
  id : Option Rat := none
  pad : Option Rat := none
deriving Repr, DecidableEq

/-- `resolvePadId(payload)` from `pages/api/socket.ts`. -/
def resolvePadId (payload : PadIdPayload) : Option Int :=
  match payload.padId <|> payload.id <|> payload.pad with
  | none => none
  | some q => some ⌊q⌋

/-- Payload carrying only a pad id (`{ padId: n }`). -/
def padPayload (n : Nat) : PadIdPayload := { padId := some (n : Rat) }

/-- `getPadById`: first pad whose `id` strictly equals the resolved id. -/
def getPadById (b : BoardState) (padId : Int) : Option Pad :=
  b.pads.find? (fun p => (p.id : Int) == padId)

/-- Replace the first pad with the given id (the source mutates the
object returned by `find` in place). -/
def updateFirstPad : List Pad → Int → Pad → List Pad
  | [], _, _ => []
  | p :: rest, pid, newPad =>
      if (p.id : Int) == pid then newPad :: rest
      else p :: updateFirstPad rest pid newPad

/-- `recomputeNextPadId`. -/
def recomputeNextPadId (state : BoardState) : BoardState :=
  let maxId := state.pads.foldl (fun m p => max m p.id) 0
  { state with nextPadId := max state.nextPadId (maxId + 1) }

/-- `setStatus`. -/
def setStatus (pad : Pad) (status : PadStatus) (nowMs : Nat) : Pad :=
  { pad with status := some status, updatedAt := nowMs }

/-- `isArrivedForNow`: truthy arrival timestamp and team id, truthy
`now.id`, and the arrival team id strictly equals `now.id`. -/
def isArrivedForNow (pad : Pad) : Bool :=
  let nowId := pad.now.map (·.id)
  truthyNat pad.nowArrivedAt && truthyStr pad.nowArrivedTeamId &&
    truthyStr nowId && (pad.nowArrivedTeamId == nowId)

/-- `startReportTimerForNow`. -/
def startReportTimerForNow (pad : Pad) (nowMs : Nat) : Pad :=
  let pad := { pad with
    reportByTeamId := pad.now.map (·.id),
    reportByDeadlineAt :=
      if pad.now.isSome then some (nowMs + REPORT_WINDOW_MS) else none }
  setStatus pad (if pad.now.isSome then .REPORTING else .IDLE) nowMs

/-- `clearArrivalForNow`. -/
def clearArrivalForNow (pad : Pad) : Pad :=
  { pad with nowArrivedAt := none, nowArrivedTeamId := none,
             runStartedAt := none }

/-- `markArrived`. -/
def markArrived (pad : Pad) (nowMs : Nat) : Pad :=
  let pad := { pad with
    nowArrivedAt := some nowMs,
    nowArrivedTeamId := pad.now.map (·.id),
    reportByTeamId := none,
    reportByDeadlineAt := none,
    runStartedAt := some nowMs }
  setStatus pad .ON_PAD nowMs

/-- `markNowTeam` (tags the current `now` occupant). -/
def markNowTeam (pad : Pad) (tag : String) (nowMs : Nat) : Pad :=
  match pad.now with
  | none => pad
  | some t => { pad with now := some { t with tag := some tag },
                         updatedAt := nowMs }

/-- `swapNowOnDeck`. -/
def swapNowOnDeck (pad : Pad) (nowMs : Nat) : Pad :=
  let tmp := pad.now
  let pad := { pad with now := pad.onDeck, onDeck := tmp,
                        breakUntilAt := none, breakReason := none,
                        breakStartAt := none }
  startReportTimerForNow (clearArrivalForNow pad) nowMs

/-- `skipOnDeck`. -/
def skipOnDeck (pad : Pad) (nowMs : Nat) : Pad :=
  match pad.onDeck with
  | none => pad
  | some moved =>
      let moved := { moved with tag := some "SKIPPED" }
      let nextOnDeck := pad.standby.head?
      let nextStandby := pad.standby.tail
      { pad with onDeck := nextOnDeck, standby := nextStandby ++ [moved],
                 updatedAt := nowMs }

/-- `clearPad`. -/
def clearPad (pad : Pad) (nowMs : Nat) : Pad :=
  let pad := { pad with
    now := none, onDeck := none, standby := [],
    note := "", breakUntilAt := none, breakReason := none,
    breakStartAt := none }
  let pad := clearArrivalForNow pad
  let pad := { pad with
    lastCompleteAt := none, reportByTeamId := none,
    reportByDeadlineAt := none }
  setStatus pad .IDLE nowMs

/-- `nextStats` (exact-rational rolling average). -/
def nextStats (prev : Option CycleStats) (newSec : Rat) (nowMs : Nat) :
    CycleStats :=
  match prev with
  | none => { count := 1, avgSec := newSec, lastSec := some newSec,
              updatedAt := nowMs }
  | some prev =>
      let count := prev.count + 1
      { count := count,
        avgSec := (prev.avgSec * prev.count + newSec) / count,
        lastSec := some newSec, updatedAt := nowMs }

/-- `updateCycleStats` (duration clamped to `[10, 1800]` seconds; note
the source passes the pad after the queue advance, so `pad.now` here is
the new occupant). -/
def updateCycleStats (state : BoardState) (pad : Pad) (durationSec : Rat)
    (nowMs : Nat) : BoardState :=
  let byPad := state.cycleStatsByPad.getD []
  let byKey := state.cycleStatsByKey.getD []
  let d : Rat := ((max 10 (min 1800 ⌊durationSec⌋) : Int) : Rat)
  let byPad := alistSet byPad pad.id (nextStats (alistGet? byPad pad.id) d nowMs)
  let keyA := "pad:" ++ toString pad.id
  let byKey := alistSet byKey keyA (nextStats (alistGet? byKey keyA) d nowMs)
  let byKey :=
    if pad.label != "" then
      let labelKey := "label:" ++ pad.label
      alistSet byKey labelKey (nextStats (alistGet? byKey labelKey) d nowMs)
    else byKey
  let byKey :=
    match pad.now.bind (·.category) with
    | some cat =>
        if cat != "" then
          let catKey := "cat:" ++ cat
          alistSet byKey catKey (nextStats (alistGet? byKey catKey) d nowMs)
        else byKey
    | none => byKey
  { state with cycleStatsByPad := some byPad, cycleStatsByKey := some byKey }

/-- `normalizeSchedule` (the source's `Date.now()` defaults are taken at
the caller's `nowMs`). -/
def normalizeSchedule (s : Option (List ScheduleEvent)) (nowMs : Nat) :
    List ScheduleEvent :=
  (((s.getD []).filter (fun e =>
      e.id != "" && e.title != "" && e.startAt != 0 && e.endAt != 0)).map
    (fun e => { e with
      padIds := if e.scope == "PAD" then some (e.padIds.getD []) else none,
      createdAt := some (e.createdAt.getD nowMs),
      updatedAt := some (e.updatedAt.getD nowMs) }))
    |> stableSort (fun a b => a.startAt ≤ b.startAt)

/-- The local-break-active test used by the sanitation pass:
`!!p.breakUntilAt && p.breakUntilAt > nowMs`. -/
def localBreakActive (pad : Pad) (nowMs : Nat) : Bool :=
  match pad.breakUntilAt with
  | none => false
  | some b => b != 0 && b > nowMs

/-- The per-pad body of `sanitizeStateAfterAnyLoad` (default fills for
optional fields, report-timer creation for an occupied `now` without a
deadline, and arrival-consistency repair). The `?? null` fills on fields
this embedding keeps total are identities and are omitted. -/
def sanitizePad (p : Pad) (nowMs : Nat) : Pad :=
  let st := p.status.getD (if p.now.isSome then .REPORTING else .IDLE)
  let p := { p with status := some st }
  let breakActive := localBreakActive p nowMs
  let p :=
    if !breakActive && p.now.isSome && !truthyNat p.reportByDeadlineAt &&
        !isArrivedForNow p then
      startReportTimerForNow p nowMs
    else p
  if isArrivedForNow p then
    let p := { p with reportByTeamId := none, reportByDeadlineAt := none }
    let st2 : PadStatus := if p.status == some .RUNNING then .RUNNING else .ON_PAD
    let p := { p with status := some st2 }
    if !truthyNat p.runStartedAt then
      { p with runStartedAt := p.nowArrivedAt }
    else p
  else p

/-- `sanitizeStateAfterAnyLoad` (run on every load and before every
broadcast). -/
def sanitizeStateAfterAnyLoad (state : BoardState) (nowMs : Nat) :
    BoardState :=
  let state := recomputeNextPadId state
  let state := { state with
    globalBreakStartAt := state.globalBreakStartAt,
    globalMessage := state.globalMessage,
    eventHeaderLabel := some (state.eventHeaderLabel.getD "COMPETITION MATRIX"),
    schedule := some (normalizeSchedule state.schedule nowMs),
    scheduleUpdatedAt := some (state.scheduleUpdatedAt.getD nowMs),
    cycleStatsByPad := some (state.cycleStatsByPad.getD []),
    cycleStatsByKey := some (state.cycleStatsByKey.getD []),
    avgCycleSecondsByPad := some (state.avgCycleSecondsByPad.getD []) }
  let state := { state with pads := state.pads.map (sanitizePad · nowMs) }
  { state with updatedAt := nowMs }

/-- `insertTeamIntoPad`. -/
def insertTeamIntoPad (pad : Pad) (nowMs : Nat) (whereTo : String)
    (team : Team) : Pad :=
  if whereTo == "NOW" then
    let pad :=
      match pad.onDeck with
      | some od => { pad with standby := od :: pad.standby }
      | none => pad
    let pad :=
      match pad.now with
      | some n => { pad with onDeck := some n }
      | none => pad
    let pad := { pad with now := some team }
    startReportTimerForNow (clearArrivalForNow pad) nowMs
  else if whereTo == "ONDECK" then
    let pad :=
      match pad.onDeck with
      | some od => { pad with standby := od :: pad.standby }
      | none => pad
    { pad with onDeck := some team, updatedAt := nowMs }
  else
    { pad with standby := pad.standby ++ [team], updatedAt := nowMs }

/-- `moveItem` (reorder inside `standby`). -/
def moveItem (arr : List α) (fr toIdx : Int) : List α :=
  if fr < 0 || fr ≥ arr.length then arr
  else
    let fr := fr.toNat
    match arr[fr]? with
    | none => arr
    | some item =>
        let rest := arr.eraseIdx fr
        let clamped := (max 0 (min (rest.length : Int) toIdx)).toNat
        rest.insertIdx clamped item

/-- `extractTeamFromPad` (removes the team with the given id from
whichever slot holds it; the standby case filters every occurrence, as
the source does). -/
def extractTeamFromPad (pad : Pad) (teamId : String) : Option Team × Pad :=
  match pad.now with
  | some n =>
      if n.id == teamId then (some n, { pad with now := none })
      else extractFromOnDeck pad teamId
  | none => extractFromOnDeck pad teamId
where
  /-- on-deck and standby cases of `extractTeamFromPad`. -/
  extractFromOnDeck (pad : Pad) (teamId : String) : Option Team × Pad :=
    match pad.onDeck with
    | some od =>
        if od.id == teamId then (some od, { pad with onDeck := none })
        else extractFromStandby pad teamId
    | none => extractFromStandby pad teamId
  /-- standby case of `extractTeamFromPad`. -/
  extractFromStandby (pad : Pad) (teamId : String) : Option Team × Pad :=
    match pad.standby.find? (fun t => t.id == teamId) with
    | some t =>
        (some t, { pad with standby := pad.standby.filter (·.id != teamId) })
    | none => (none, pad)

/-- `advanceWithoutComplete`. -/
def advanceWithoutComplete (pad : Pad) (nowMs : Nat) : Pad :=
  let pad := { pad with now := pad.onDeck, onDeck := pad.standby.head?,
                        standby := pad.standby.tail }
  let pad := clearArrivalForNow pad
  let pad := { pad with breakStartAt := none }
  startReportTimerForNow pad nowMs

/-- `pushAudit` (appends one entry, evicts over `MAX_AUDIT`, and bumps
the uid counter that models the entry's random id). -/
def pushAudit (ts : Nat) (padId : Option Int) (action detail : String)
    (s : ServerState) : ServerState :=
  let e : AuditEntry := { id := uid s.uidCounter, ts := ts, padId := padId,
                          action := action, detail := detail }
  let a := s.audit ++ [e]
  let a := if a.length > MAX_AUDIT then a.drop (a.length - MAX_AUDIT) else a
  { s with audit := a, uidCounter := s.uidCounter + 1 }

/-- `snapshotForUndo` (deep-copies the whole board state onto the pad's
stack; newest first in this embedding, capped at `MAX_UNDO_PER_PAD`). -/
def snapshotForUndo (padId : Int) (s : ServerState) : ServerState :=
  let stack := alistGet s.padHistory padId []
  let stack := (s.boardState :: stack).take MAX_UNDO_PER_PAD
  { s with padHistory := alistSet s.padHistory padId stack }

/-- `undoForPad` (pops the newest snapshot and replaces the whole board
state with it; returns whether a snapshot was available). -/
def undoForPad (padId : Int) (s : ServerState) : Bool × ServerState :=
  match alistGet s.padHistory padId [] with
  | [] => (false, s)
  | prev :: rest =>
      (true, { s with boardState := prev,
                      padHistory := alistSet s.padHistory padId rest })

/-- The global-break-active test of the `judge:complete` and
`judge:startBreak` handlers: `(!gbStart || nowMs >= gbStart) && !!gbUntil
&& nowMs < gbUntil`. -/
def globalBreakActive (b : BoardState) (nowMs : Nat) : Bool :=
  (match b.globalBreakStartAt with
   | none => true
   | some st => st == 0 || nowMs ≥ st) &&
  (match b.globalBreakUntilAt with
   | none => false
   | some u => u != 0 && nowMs < u)

/-- `appendChatToPad` (appends one message to a pad channel, evicting
over `MAX_CHAT_PER_PAD`). -/
def appendChatToPad (padId : Int) (msg : ChatMessage) (s : ServerState) :
    ServerState :=
  let cur := alistGet s.commChannels padId []
  let cur := cur ++ [msg]
  let cur :=
    if cur.length > MAX_CHAT_PER_PAD then cur.drop (cur.length - MAX_CHAT_PER_PAD)
    else cur
  { s with commChannels := alistSet s.commChannels padId cur }

/-- `payload?.x ? String(payload.x) : undefined` (string truthiness). -/
def optTruthyStr : Option String → Option String
  | some s => if s != "" then some s else none
  | none => none

/-- The `division === "Jr" || division === "Sr"` payload filter. -/
def divisionOf (o : Option String) : Option String :=
  if o == some "Jr" || o == some "Sr" then o else none

/-- `createPad` from `lib/state.ts` with `seedDemoTeams: false` (the
only way the handlers call it). -/
def createPad (id : Nat) (nowMs : Nat) (name label : Option String) : Pad :=
  { id := id,
    name := name.getD ("Area " ++ toString id),
    label := label.getD ("Area " ++ toString id),
    now := none, onDeck := none, standby := [],
    note := "",
    nowArrivedAt := none, nowArrivedTeamId := none,
    lastCompleteAt := none,
    reportByDeadlineAt := none, reportByTeamId := none,
    status := some .IDLE,
    breakUntilAt := none, breakReason := none, breakStartAt := none,
    runStartedAt := none, lastRunEndedAt := none,
    message := none, messageUntilAt := none,
    updatedAt := nowMs }

/-- Replace the last list element satisfying `p` by `f` of it (models
mutating in place the object found by `reverse().find(...)`). -/
def updFirstBy (p : α → Bool) (f : α → α) : List α → List α
  | [] => []
  | x :: rest => if p x then f x :: rest else x :: updFirstBy p f rest

/-!
## Command handlers

Each handler takes the connection's `socket.data` (`SockData`), the
payload fields it reads (absent or non-coercible fields are `none`;
numeric minute/time payload fields are kept integral, which covers every
input the claims exercise), the current `Date.now()` and the server
globals, and returns the new globals. The `emitState()` broadcast at the
end of each handler is fan-out, not handler-local mutation, and is
modelled separately by `sanitizeStateAfterAnyLoad`.
-/

/-- The `judge:complete` handler. -/
def handleJudgeComplete (data : SockData) (payload : PadIdPayload)
    (nowMs : Nat) (s : ServerState) : ServerState :=
  if data.role != .judge then s else
  match resolvePadId payload with
  | none => s
  | some padId =>
    let state := s.boardState
    match getPadById state padId with
    | none => s
    | some pad =>
      if globalBreakActive state nowMs then
        pushAudit nowMs (some padId) "COMPLETE_BLOCKED" "Blocked by global break." s
      else
        let s := snapshotForUndo padId s
        let runStart := pad.runStartedAt <|> pad.nowArrivedAt
        let durationSec : Option Rat :=
          match runStart with
          | some r => if r != 0 then some ((((nowMs : Int) - (r : Int)) : Rat) / 1000) else none
          | none => none
        let prevNowName := (pad.now.map (·.name)).getD "—"
        let pad := { pad with lastCompleteAt := some nowMs,
                              lastRunEndedAt := some nowMs }
        let pad := { pad with now := pad.onDeck, onDeck := pad.standby.head?,
                              standby := pad.standby.tail }
        let pad := clearArrivalForNow pad
        let pad := { pad with breakStartAt := none }
        let pad := startReportTimerForNow pad nowMs
        let board := { state with pads := updateFirstPad state.pads padId pad }
        let board :=
          match durationSec with
          | some d => updateCycleStats board pad d nowMs
          | none => board
        let board := { board with updatedAt := nowMs }
        let s := { s with boardState := board }
        pushAudit nowMs (some padId) "COMPLETE"
          ("Completed. Prev NOW: " ++ prevNowName ++ ". New NOW: " ++
            (pad.now.map (·.name)).getD "—") s

/-- The `judge:hold` handler. -/
def handleJudgeHold (data : SockData) (payload : PadIdPayload)
    (nowMs : Nat) (s : ServerState) : ServerState :=
  if data.role != .judge then s else
  match resolvePadId payload with
  | none => s
  | some padId =>
    match getPadById s.boardState padId with
    | none => s
    | some pad =>
      let s := snapshotForUndo padId s
      let pad := setStatus { pad with note := "HOLD" } .HOLD nowMs
      let board := { s.boardState with
        pads := updateFirstPad s.boardState.pads padId pad,
        updatedAt := nowMs }
      pushAudit nowMs (some padId) "HOLD" "Hold set." { s with boardState := board }

/-- The `judge:dns` handler. -/
def handleJudgeDns (data : SockData) (payload : PadIdPayload)
    (nowMs : Nat) (s : ServerState) : ServerState :=
  if data.role != .judge then s else
  match resolvePadId payload with
  | none => s
  | some padId =>
    match getPadById s.boardState padId with
    | none => s
    | some pad =>
      let s := snapshotForUndo padId s
      let pad := markNowTeam pad "DNS" nowMs
      let board := { s.boardState with
        pads := updateFirstPad s.boardState.pads padId pad,
        updatedAt := nowMs }
      pushAudit nowMs (some padId) "DNS" "Marked NOW DNS." { s with boardState := board }

/-- The `judge:dq` handler. -/
def handleJudgeDq (data : SockData) (payload : PadIdPayload)
    (nowMs : Nat) (s : ServerState) : ServerState :=
  if data.role != .judge then s else
  match resolvePadId payload with
  | none => s
  | some padId =>
    match getPadById s.boardState padId with
    | none => s
    | some pad =>
      let s := snapshotForUndo padId s
      let pad := markNowTeam pad "DQ" nowMs
      let board := { s.boardState with
        pads := updateFirstPad s.boardState.pads padId pad,
        updatedAt := nowMs }
      pushAudit nowMs (some padId) "DQ" "Marked NOW DQ." { s with boardState := board }

/-- The `judge:undo` handler (pops a snapshot, then stamps `updatedAt`
with the undo time). -/
def handleJudgeUndo (data : SockData) (payload : PadIdPayload)
    (nowMs : Nat) (s : ServerState) : ServerState :=
  if data.role != .judge then s else
  match resolvePadId payload with
  | none => s
  | some padId =>
    let (ok, s) := undoForPad padId s
    let s := { s with boardState := { s.boardState with updatedAt := nowMs } }
    pushAudit nowMs (some padId) "UNDO"
      (if ok then "Undo successful." else "Undo not available.") s

/-- The `judge:arrived` handler. NOTE: the source registers this handler
without the `role !== "judge"` guard that every sibling judge handler
carries. -/
def handleJudgeArrived (data : SockData) (payload : PadIdPayload)
    (nowMs : Nat) (s : ServerState) : ServerState :=
  match resolvePadId payload with
  | none => s
  | some padId =>
    match getPadById s.boardState padId with
    | none => s
    | some pad =>
      let s := snapshotForUndo padId s
      let pad := markArrived pad nowMs
      let board := { s.boardState with
        pads := updateFirstPad s.boardState.pads padId pad,
        updatedAt := nowMs }
      pushAudit nowMs (some padId) "ARRIVED" "Marked arrived." { s with boardState := board }

/-- The `judge:swap` handler. -/
def handleJudgeSwap (data : SockData) (payload : PadIdPayload)
    (nowMs : Nat) (s : ServerState) : ServerState :=
  if data.role != .judge then s else
  match resolvePadId payload with
  | none => s
  | some padId =>
    match getPadById s.boardState padId with
    | none => s
    | some pad =>
      let s := snapshotForUndo padId s
      let pad := swapNowOnDeck pad nowMs
      let board := { s.boardState with
        pads := updateFirstPad s.boardState.pads padId pad,
        updatedAt := nowMs }
      pushAudit nowMs (some padId) "SWAP" "Swapped NOW/ONDECK." { s with boardState := board }

/-- The `judge:skipOnDeck` handler. -/
def handleJudgeSkipOnDeck (data : SockData) (payload : PadIdPayload)
    (nowMs : Nat) (s : ServerState) : ServerState :=
  if data.role != .judge then s else
  match resolvePadId payload with
  | none => s
  | some padId =>
    match getPadById s.boardState padId with
    | none => s
    | some pad =>
      let s := snapshotForUndo padId s
      let pad := skipOnDeck pad nowMs
      let board := { s.boardState with
        pads := updateFirstPad s.boardState.pads padId pad,
        updatedAt := nowMs }
      pushAudit nowMs (some padId) "SKIP_ON_DECK" "Moved ONDECK to standby end."
        { s with boardState := board }

/-- The `judge:clear` handler. NOTE: like `judge:arrived`, the source
registers this handler without any role guard. -/
def handleJudgeClear (data : SockData) (payload : PadIdPayload)
    (nowMs : Nat) (s : ServerState) : ServerState :=
  match resolvePadId payload with
  | none => s
  | some padId =>
    match getPadById s.boardState padId with
    | none => s
    | some pad =>
      let s := snapshotForUndo padId s
      let pad := clearPad pad nowMs
      let board := { s.boardState with
        pads := updateFirstPad s.boardState.pads padId pad,
        updatedAt := nowMs }
      pushAudit nowMs (some padId) "CLEAR_PAD" "Cleared area queue."
        { s with boardState := board }

/-- The `judge:startBreak` handler. While `now` is occupied (with a
truthy id) it repurposes `reportByDeadlineAt` as the break-end deadline,
so the deadline is non-null while the local break is active. -/
def handleJudgeStartBreak (data : SockData) (payload : PadIdPayload)
    (minutes : Option Nat) (reason : Option String)
    (nowMs : Nat) (s : ServerState) : ServerState :=
  if data.role != .judge then s else
  match resolvePadId payload with
  | none => s
  | some padId =>
    let state := s.boardState
    match getPadById state padId with
    | none => s
    | some pad =>
      if globalBreakActive state nowMs then
        pushAudit nowMs (some padId) "BREAK_BLOCKED" "Blocked by global break." s
      else
        let s := snapshotForUndo padId s
        let m := minutes.getD 10
        let reasonStr := reason.getD "Break"
        let untilAt := nowMs + max 1 m * 60 * 1000
        let pad := { pad with breakUntilAt := some untilAt,
                              breakReason := some reasonStr,
                              note := "BREAK: " ++ reasonStr }
        let pad :=
          if truthyStr (pad.now.map (·.id)) then
            { pad with reportByTeamId := pad.now.map (·.id),
                       reportByDeadlineAt := some untilAt }
          else
            { pad with reportByTeamId := none, reportByDeadlineAt := none }
        let pad := setStatus pad .BREAK nowMs
        let board := { state with
          pads := updateFirstPad state.pads padId pad,
          updatedAt := nowMs }
        pushAudit nowMs (some padId) "BREAK_START"
          ("Break started: " ++ toString m ++ " min (" ++ reasonStr ++ ")")
          { s with boardState := board }

/-- The `judge:endBreak` handler. -/
def handleJudgeEndBreak (data : SockData) (payload : PadIdPayload)
    (nowMs : Nat) (s : ServerState) : ServerState :=
  if data.role != .judge then s else
  match resolvePadId payload with
  | none => s
  | some padId =>
    match getPadById s.boardState padId with
    | none => s
    | some pad =>
      let s := snapshotForUndo padId s
      let pad := { pad with breakUntilAt := none, breakReason := none,
                            note := "" }
      let pad :=
        if isArrivedForNow pad then
          setStatus { pad with reportByTeamId := none,
                               reportByDeadlineAt := none } .ON_PAD nowMs
        else
          match pad.now with
          | some nowTeam =>
              let hasValidDeadline :=
                truthyNat pad.reportByDeadlineAt &&
                truthyStr pad.reportByTeamId &&
                pad.reportByTeamId == some nowTeam.id
              if !hasValidDeadline then startReportTimerForNow pad nowMs
              else setStatus pad .REPORTING nowMs
          | none =>
              setStatus { pad with reportByTeamId := none,
                                   reportByDeadlineAt := none } .IDLE nowMs
      let board := { s.boardState with
        pads := updateFirstPad s.boardState.pads padId pad,
        updatedAt := nowMs }
      pushAudit nowMs (some padId) "BREAK_END" "Break ended"
        { s with boardState := board }

/-- The `judge:addTeam` handler. A caller-supplied `teamId` is used
verbatim (trimmed) with no duplicate check; an absent `teamId` gets a
fresh `uid()`. -/
def handleJudgeAddTeam (data : SockData) (payload : PadIdPayload)
    (whereRaw teamName teamId unit category division : Option String)
    (nowMs : Nat) (s : ServerState) : ServerState :=
  if data.role != .judge then s else
  match resolvePadId payload with
  | none => s
  | some padId =>
    match getPadById s.boardState padId with
    | none => s
    | some pad =>
      let w := jsToUpper (whereRaw.getD "END")
      let name := jsTrim (teamName.getD "")
      if name == "" then s else
      let s := snapshotForUndo padId s
      let (tid, s) :=
        match teamId with
        | some t => (jsTrim t, s)
        | none => (jsTrim (uid s.uidCounter), { s with uidCounter := s.uidCounter + 1 })
      let team : Team := {
        id := tid, name := name,
        unit := optTruthyStr unit, category := optTruthyStr category,
        division := divisionOf division, tag := some "MANUAL" }
      let whereSafe := if w == "NOW" then "NOW"
        else if w == "ONDECK" then "ONDECK" else "END"
      let pad := insertTeamIntoPad pad nowMs whereSafe team
      let board := { s.boardState with
        pads := updateFirstPad s.boardState.pads padId pad,
        updatedAt := nowMs }
      pushAudit nowMs (some padId) "MANUAL_ADD"
        ("Added participant (" ++ whereSafe ++ "): " ++ team.name ++
          " (" ++ team.id ++ ")")
        { s with boardState := board }

/-- The `judge:setPadLabel` handler. -/
def handleJudgeSetPadLabel (data : SockData) (payload : PadIdPayload)
    (label : Option String) (nowMs : Nat) (s : ServerState) : ServerState :=
  if data.role != .judge then s else
  match resolvePadId payload with
  | none => s
  | some padId =>
    match getPadById s.boardState padId with
    | none => s
    | some pad =>
      let l := jsTrim (label.getD "")
      if l == "" then s else
      let s := snapshotForUndo padId s
      let pad := { pad with label := l, updatedAt := nowMs }
      let board := { s.boardState with
        pads := updateFirstPad s.boardState.pads padId pad,
        updatedAt := nowMs }
      pushAudit nowMs (some padId) "SET_LABEL" ("Set label: " ++ l)
        { s with boardState := board }

/-- The `admin:pad:add` handler. NOTE: the source registers this handler
without the `role !== "admin"` guard that every sibling admin handler
carries. -/
def handleAdminPadAdd (data : SockData) (name label : Option String)
    (nowMs : Nat) (s : ServerState) : ServerState :=
  let state := s.boardState
  let nameArg := optTruthyStr name
  let labelArg := optTruthyStr label
  let id := state.nextPadId
  let pad := createPad id nowMs
    (some (nameArg.getD ("Area " ++ toString id)))
    (some (labelArg.getD ("Area " ++ toString id)))
  let board := { state with
    pads := state.pads ++ [pad],
    nextPadId := id + 1,
    updatedAt := nowMs }
  pushAudit nowMs (some (id : Int)) "AREA_ADD"
    ("Added area: " ++ pad.name ++ " (" ++ pad.label ++ ")")
    { s with boardState := board }

/-- The `admin:pad:update` handler. -/
def handleAdminPadUpdate (data : SockData) (payload : PadIdPayload)
    (name label : Option String) (nowMs : Nat) (s : ServerState) :
    ServerState :=
  if data.role != .admin then s else
  match resolvePadId payload with
  | none => s
  | some padId =>
    match getPadById s.boardState padId with
    | none => s
    | some pad =>
      let s := snapshotForUndo padId s
      let nameT := name.map jsTrim
      let labelT := label.map jsTrim
      let pad :=
        match nameT with
        | some n => if n.length > 0 then { pad with name := n } else pad
        | none => pad
      let pad :=
        match labelT with
        | some l => if l.length > 0 then { pad with label := l } else pad
        | none => pad
      let pad := { pad with updatedAt := nowMs }
      let board := { s.boardState with
        pads := updateFirstPad s.boardState.pads padId pad,
        updatedAt := nowMs }
      pushAudit nowMs (some padId) "AREA_UPDATE"
        ("Updated area: " ++ pad.name ++ " (" ++ pad.label ++ ")")
        { s with boardState := board }

/-- The `admin:pad:delete` handler. NOTE: no role guard in the source,
and it deletes the pad's undo stack outright. -/
def handleAdminPadDelete (data : SockData) (payload : PadIdPayload)
    (nowMs : Nat) (s : ServerState) : ServerState :=
  match resolvePadId payload with
  | none => s
  | some padId =>
    match getPadById s.boardState padId with
    | none => s
    | some pad =>
      let s := { s with padHistory := alistDel s.padHistory padId }
      let board := { s.boardState with
        pads := s.boardState.pads.filter (fun p => (p.id : Int) != padId),
        updatedAt := nowMs }
      pushAudit nowMs (some padId) "AREA_DELETE" ("Deleted area: " ++ pad.name)
        { s with boardState := board }

/-- The `admin:clearAllQueues` handler (hard reset; pushes no undo
snapshot). -/
def handleAdminClearAllQueues (data : SockData) (nowMs : Nat)
    (s : ServerState) : ServerState :=
  if data.role != .admin then s else
  let board := { s.boardState with
    pads := s.boardState.pads.map (clearPad · nowMs),
    updatedAt := nowMs }
  pushAudit nowMs none "CLEAR_ALL" "Cleared all queues across all areas."
    { s with boardState := board }

/-- The `admin:team:add` handler (same insertion path as
`judge:addTeam`, admin-gated, tagged `ADMIN_TEAM_ADD`). -/
def handleAdminTeamAdd (data : SockData) (payload : PadIdPayload)
    (whereRaw teamName teamId unit category division : Option String)
    (nowMs : Nat) (s : ServerState) : ServerState :=
  if data.role != .admin then s else
  match resolvePadId payload with
  | none => s
  | some padId =>
    match getPadById s.boardState padId with
    | none => s
    | some pad =>
      let w := jsToUpper (whereRaw.getD "END")
      let name := jsTrim (teamName.getD "")
      if name == "" then s else
      let s := snapshotForUndo padId s
      let (tid, s) :=
        match teamId with
        | some t => (jsTrim t, s)
        | none => (jsTrim (uid s.uidCounter), { s with uidCounter := s.uidCounter + 1 })
      let team : Team := {
        id := tid, name := name,
        unit := optTruthyStr unit, category := optTruthyStr category,
        division := divisionOf division, tag := some "MANUAL" }
      let whereSafe := if w == "NOW" then "NOW"
        else if w == "ONDECK" then "ONDECK" else "END"
      let pad := insertTeamIntoPad pad nowMs whereSafe team
      let board := { s.boardState with
        pads := updateFirstPad s.boardState.pads padId pad,
        updatedAt := nowMs }
      pushAudit nowMs (some padId) "ADMIN_TEAM_ADD"
        ("Added participant (" ++ whereSafe ++ "): " ++ team.name ++
          " (" ++ team.id ++ ")")
        { s with boardState := board }

/-- The `admin:standby:move` handler (`from`/`to` are the
`Number(...)`-coerced payload indices; non-finite payloads are `none`). -/
def handleAdminStandbyMove (data : SockData) (payload : PadIdPayload)
    (fr toIdx : Option Rat) (nowMs : Nat) (s : ServerState) : ServerState :=
  if data.role != .admin then s else
  match resolvePadId payload with
  | none => s
  | some padId =>
    match getPadById s.boardState padId with
    | none => s
    | some pad =>
      match fr, toIdx with
      | some f, some t =>
        if pad.standby.length ≤ 1 then s else
        let s := snapshotForUndo padId s
        let pad := { pad with standby := moveItem pad.standby ⌊f⌋ ⌊t⌋,
                              updatedAt := nowMs }
        let board := { s.boardState with
          pads := updateFirstPad s.boardState.pads padId pad,
          updatedAt := nowMs }
        pushAudit nowMs (some padId) "STANDBY_MOVE"
          ("Moved standby index " ++ toString f ++ " -> " ++ toString t)
          { s with boardState := board }
      | _, _ => s

/-- The `admin:queue:setSlot` handler. -/
def handleAdminQueueSetSlot (data : SockData) (payload : PadIdPayload)
    (teamIdRaw target : Option String) (nowMs : Nat) (s : ServerState) :
    ServerState :=
  if data.role != .admin then s else
  match resolvePadId payload with
  | none => s
  | some padId =>
    match getPadById s.boardState padId with
    | none => s
    | some pad =>
      let teamId := jsTrim (teamIdRaw.getD "")
      let tgt := jsToUpper (target.getD "")
      if teamId == "" then s else
      if tgt != "NOW" && tgt != "ONDECK" then s else
      if tgt == "ONDECK" && pad.onDeck.map (·.id) == some teamId then s else
      if tgt == "NOW" && pad.now.map (·.id) == some teamId then s else
      let s := snapshotForUndo padId s
      if tgt == "NOW" && pad.onDeck.map (·.id) == some teamId then
        let pad := swapNowOnDeck pad nowMs
        let board := { s.boardState with
          pads := updateFirstPad s.boardState.pads padId pad,
          updatedAt := nowMs }
        pushAudit nowMs (some padId) "QUEUE_SET_NOW" "NOW set from ONDECK via swap"
          { s with boardState := board }
      else
        match extractTeamFromPad pad teamId with
        | (none, _) => s
        | (some team, pad) =>
          let pad := insertTeamIntoPad pad nowMs tgt team
          let board := { s.boardState with
            pads := updateFirstPad s.boardState.pads padId pad,
            updatedAt := nowMs }
          pushAudit nowMs (some padId) "QUEUE_SET_SLOT"
            ("Set " ++ tgt ++ ": " ++ team.name ++ " (" ++ team.id ++ ")")
            { s with boardState := board }

/-- The `admin:queue:demote` handler. -/
def handleAdminQueueDemote (data : SockData) (payload : PadIdPayload)
    (fromSlot toEnd : Option String) (nowMs : Nat) (s : ServerState) :
    ServerState :=
  if data.role != .admin then s else
  match resolvePadId payload with
  | none => s
  | some padId =>
    match getPadById s.boardState padId with
    | none => s
    | some pad =>
      let fr := jsToUpper (fromSlot.getD "")
      let toWhere := jsToUpper (toEnd.getD "END")
      if fr != "NOW" && fr != "ONDECK" then s else
      if toWhere != "TOP" && toWhere != "END" then s else
      let s := snapshotForUndo padId s
      if fr == "NOW" then
        match pad.now with
        | none => s
        | some moved =>
          let pad :=
            if toWhere == "TOP" then { pad with standby := moved :: pad.standby }
            else { pad with standby := pad.standby ++ [moved] }
          let pad := advanceWithoutComplete pad nowMs
          let board := { s.boardState with
            pads := updateFirstPad s.boardState.pads padId pad,
            updatedAt := nowMs }
          pushAudit nowMs (some padId) "QUEUE_DEMOTE_NOW"
            ("Demoted NOW to STBY " ++ toWhere) { s with boardState := board }
      else
        match pad.onDeck with
        | none => s
        | some moved =>
          let pad :=
            if toWhere == "TOP" then { pad with standby := moved :: pad.standby }
            else { pad with standby := pad.standby ++ [moved] }
          let pad := { pad with onDeck := pad.standby.head?,
                                standby := pad.standby.tail,
                                updatedAt := nowMs }
          let board := { s.boardState with
            pads := updateFirstPad s.boardState.pads padId pad,
            updatedAt := nowMs }
          pushAudit nowMs (some padId) "QUEUE_DEMOTE_ONDECK"
            ("Demoted ONDECK to STBY " ++ toWhere) { s with boardState := board }

/-- The `admin:queue:swap` handler. -/
def handleAdminQueueSwap (data : SockData) (payload : PadIdPayload)
    (nowMs : Nat) (s : ServerState) : ServerState :=
  if data.role != .admin then s else
  match resolvePadId payload with
  | none => s
  | some padId =>
    match getPadById s.boardState padId with
    | none => s
    | some pad =>
      let s := snapshotForUndo padId s
      let pad := swapNowOnDeck pad nowMs
      let board := { s.boardState with
        pads := updateFirstPad s.boardState.pads padId pad,
        updatedAt := nowMs }
      pushAudit nowMs (some padId) "QUEUE_SWAP" "Swapped NOW/ONDECK"
        { s with boardState := board }

/-- The `safePatch`-filtered patch of `admin:queue:updateTeam` (absent
keys are `none`; `safePatch` itself only passes own enumerable allowed
keys through, which the structure models). -/
structure TeamPatch where
  id : Option String := none
  name : Option String := none
  unit : Option String := none
  category : Option String := none
  division : Option String := none
  tag : Option String := none
deriving Repr, DecidableEq

/-- The `applyPatch` closure of `admin:queue:updateTeam`; `padCtx` is
the pad state at the moment of this application (the duplicate-id check
reads the live pad object). -/
def applyPatchTeam (padCtx : Pad) (patch : TeamPatch) (t : Team) : Team :=
  let t :=
    match patch.id with
    | none => t
    | some rawId =>
      let newId := jsTrim rawId
      if newId != "" && newId != t.id then
        let dup := padCtx.now.map (·.id) == some newId ||
          padCtx.onDeck.map (·.id) == some newId ||
          padCtx.standby.any (·.id == newId)
        if !dup then { t with id := newId } else t
      else t
  let t :=
    match patch.name with
    | none => t
    | some rawName =>
      let newName := jsTrim rawName
      if newName != "" then { t with name := newName } else t
  let t :=
    match patch.unit with
    | none => t
    | some u => { t with unit := optTruthyStr (some (jsTrim u)) }
  let t :=
    match patch.category with
    | none => t
    | some c => { t with category := optTruthyStr (some (jsTrim c)) }
  let t :=
    if patch.division == some "Jr" || patch.division == some "Sr" then
      { t with division := patch.division }
    else t
  match patch.tag with
  | none => t
  | some tg => { t with tag := some tg }

/-- The `admin:queue:updateTeam` handler. -/
def handleAdminQueueUpdateTeam (data : SockData) (payload : PadIdPayload)
    (teamIdRaw : Option String) (patch : Option TeamPatch) (nowMs : Nat)
    (s : ServerState) : ServerState :=
  if data.role != .admin then s else
  match resolvePadId payload with
  | none => s
  | some padId =>
    match getPadById s.boardState padId with
    | none => s
    | some pad =>
      let teamId := jsTrim (teamIdRaw.getD "")
      match patch with
      | none => s
      | some patch =>
        if teamId == "" then s else
        let allIds :=
          (match pad.now with
           | some n => if n.id != "" then [n.id] else []
           | none => []) ++
          (match pad.onDeck with
           | some od => if od.id != "" then [od.id] else []
           | none => []) ++
          pad.standby.map (·.id)
        if !(allIds.contains teamId) then s else
        let s := snapshotForUndo padId s
        let pad :=
          if pad.now.map (·.id) == some teamId then
            { pad with now := pad.now.map (applyPatchTeam pad patch) }
          else pad
        let pad :=
          if pad.onDeck.map (·.id) == some teamId then
            { pad with onDeck := pad.onDeck.map (applyPatchTeam pad patch) }
          else pad
        let pad :=
          { pad with standby :=
              updFirstBy (·.id == teamId) (applyPatchTeam pad patch) pad.standby }
        let pad := { pad with updatedAt := nowMs }
        let board := { s.boardState with
          pads := updateFirstPad s.boardState.pads padId pad,
          updatedAt := nowMs }
        pushAudit nowMs (some padId) "QUEUE_UPDATE_TEAM"
          ("Updated team: " ++ teamId) { s with boardState := board }

/-- The `admin:standby:remove` handler. -/
def handleAdminStandbyRemove (data : SockData) (payload : PadIdPayload)
    (teamIdRaw : Option String) (nowMs : Nat) (s : ServerState) :
    ServerState :=
  if data.role != .admin then s else
  match resolvePadId payload with
  | none => s
  | some padId =>
    match getPadById s.boardState padId with
    | none => s
    | some pad =>
      let teamId := jsTrim (teamIdRaw.getD "")
      if teamId == "" then s else
      match pad.standby.find? (·.id == teamId) with
      | none => s
      | some removed =>
        let s := snapshotForUndo padId s
        let pad := { pad with standby := pad.standby.filter (·.id != teamId),
                              updatedAt := nowMs }
        let board := { s.boardState with
          pads := updateFirstPad s.boardState.pads padId pad,
          updatedAt := nowMs }
        pushAudit nowMs (some padId) "STANDBY_REMOVE"
          ("Removed standby: " ++ removed.name ++ " (" ++ removed.id ++ ")")
          { s with boardState := board }

/-- The `admin:setGlobalMessage` handler. NOTE: no role guard in the
source (`minutes` is kept integral; `0` is falsy and yields no expiry). -/
def handleAdminSetGlobalMessage (data : SockData)
    (text : Option String) (minutes : Option Nat) (nowMs : Nat)
    (s : ServerState) : ServerState :=
  let t := jsTrim (text.getD "")
  let board := { s.boardState with
    globalMessage := if t != "" then some t else none,
    globalMessageUntilAt :=
      (match minutes with
       | some m =>
           if t != "" && m != 0 then some (nowMs + max 1 m * 60 * 1000)
           else none
       | none => none),
    updatedAt := nowMs }
  pushAudit nowMs none "GLOBAL_MESSAGE_SET"
    (if t != "" then
       "Message set (" ++ (match minutes with
                           | some m => toString m
                           | none => "∞") ++ "m)"
     else "Message cleared")
    { s with boardState := board }

/-- The `admin:scheduleGlobalBreak` handler. NOTE: no role guard in the
source. The audit detail's ISO-date rendering is abbreviated to the raw
timestamp. -/
def handleAdminScheduleGlobalBreak (data : SockData)
    (startAt minutes : Option Nat) (reason : Option String) (nowMs : Nat)
    (s : ServerState) : ServerState :=
  let st := startAt.getD 0
  let m := minutes.getD 60
  let r := reason.getD "Break"
  if st == 0 then s else
  let board := { s.boardState with
    globalBreakStartAt := some st,
    globalBreakUntilAt := some (st + max 1 m * 60 * 1000),
    globalBreakReason := some r,
    updatedAt := nowMs }
  pushAudit nowMs none "GLOBAL_BREAK_SCHEDULE"
    ("Global break scheduled @" ++ toString st ++ " (" ++ toString m ++ "m): " ++ r)
    { s with boardState := board }

/-- The `admin:setEventHeaderLabel` handler. NOTE: no role guard in the
source. -/
def handleAdminSetEventHeaderLabel (data : SockData)
    (text : Option String) (nowMs : Nat) (s : ServerState) : ServerState :=
  let t := jsTrim (text.getD "")
  let label := if t != "" then t else "COMPETITION MATRIX"
  let board := { s.boardState with
    eventHeaderLabel := some label,
    updatedAt := nowMs }
  pushAudit nowMs none "EVENT_HEADER_SET" ("Header set: " ++ label)
    { s with boardState := board }

/-- The `admin:startGlobalBreak` handler (admin-gated). -/
def handleAdminStartGlobalBreak (data : SockData)
    (minutes : Option Nat) (reason : Option String) (nowMs : Nat)
    (s : ServerState) : ServerState :=
  if data.role != .admin then s else
  let m := minutes.getD 60
  let r := reason.getD "Break"
  let board := { s.boardState with
    globalBreakStartAt := some nowMs,
    globalBreakUntilAt := some (nowMs + max 1 m * 60 * 1000),
    globalBreakReason := some r,
    updatedAt := nowMs }
  pushAudit nowMs none "GLOBAL_BREAK_START"
    ("Global break started (" ++ toString m ++ "m): " ++ r)
    { s with boardState := board }

/-!
## Comm (messaging) handlers
-/

/-- Urgent truthiness of a chat message (`m.urgent` is truthy only when
it is the boolean `true`). -/
def msgUrgent (m : ChatMessage) : Bool := m.urgent == some true

/-- The `comm:joinPad` handler's effect on `socket.data` (the only
server-held binding; viewers/presence bookkeeping is connection-local
fan-out state and not part of the board or channel stores). -/
def commJoinPad (data : SockData) (payloadPadId : Option Rat)
    (b : BoardState) : SockData :=
  if data.role != .judge then data else
  match payloadPadId with
  | none => data
  | some q =>
      let pid : Int := ⌊q⌋
      if (getPadById b pid).isSome then { data with padId := some pid }
      else data

/-- The `admin:comm:send` handler. -/
def handleAdminCommSend (data : SockData) (toPadId : Option Rat)
    (text : Option String) (urgentFlag : Bool) (nowMs : Nat)
    (s : ServerState) : ServerState :=
  if data.role != .admin then s else
  match toPadId with
  | none => s
  | some q =>
    let pid : Int := ⌊q⌋
    let t := jsTrim (text.getD "")
    if t == "" then s else
    if !(getPadById s.boardState pid).isSome then s else
    let msg : ChatMessage := {
      id := uid s.uidCounter, ts := nowMs, from_ := "ADMIN", text := t,
      urgent := if urgentFlag then some true else none }
    appendChatToPad pid msg { s with uidCounter := s.uidCounter + 1 }

/-- The `judge:comm:send` handler: before appending the reply it
auto-acknowledges the most recent urgent message with `ackedAt` unset in
the connection's bound pad channel. -/
def handleJudgeCommSend (data : SockData) (text : Option String)
    (nowMs : Nat) (s : ServerState) : ServerState :=
  if data.role != .judge then s else
  let t := jsTrim (text.getD "")
  if t == "" then s else
  match data.padId with
  | none => s
  | some padId =>
    if !(getPadById s.boardState padId).isSome then s else
    let msgs := alistGet s.commChannels padId []
    let s :=
      match msgs.reverse.find? (fun m => msgUrgent m && m.ackedAt == none) with
      | some _ =>
          let newMsgs :=
            (updFirstBy (fun m => msgUrgent m && m.ackedAt == none)
              (fun m => { m with ackedAt := some nowMs }) msgs.reverse).reverse
          { s with commChannels := alistSet s.commChannels padId newMsgs }
      | none => s
    let msg : ChatMessage := {
      id := uid s.uidCounter, ts := nowMs, from_ := "JUDGE", text := t }
    appendChatToPad padId msg { s with uidCounter := s.uidCounter + 1 }

/-- The `judge:comm:ack` handler: acknowledges a specific message id in
the connection's bound pad channel, only if it is urgent and not already
acknowledged. -/
def handleJudgeCommAck (data : SockData) (messageIdRaw : Option String)
    (nowMs : Nat) (s : ServerState) : ServerState :=
  if data.role != .judge then s else
  match data.padId with
  | none => s
  | some padId =>
    if !(getPadById s.boardState padId).isSome then s else
    let messageId := jsTrim (messageIdRaw.getD "")
    if messageId == "" then s else
    let msgs := alistGet s.commChannels padId []
    match msgs.find? (·.id == messageId) with
    | none => s
    | some msg =>
      if !msgUrgent msg then s else
      if msg.ackedAt != none then s else
      let newMsgs := updFirstBy (·.id == messageId)
        (fun m => { m with ackedAt := some nowMs }) msgs
      { s with commChannels := alistSet s.commChannels padId newMsgs }

/-- The `admin:comm:broadcast` handler (appends one broadcast chat
message to every targeted pad channel; the source pushes the same
object into each list, which on pure values is the same as appending
equal copies). The transient `comm:broadcast` socket emit carries no
server state. -/
def handleAdminCommBroadcast (data : SockData) (text : Option String)
    (target : Option String) (padIdQ : Option Rat) (nowMs : Nat)
    (s : ServerState) : ServerState :=
  if data.role != .admin then s else
  let t := jsTrim (text.getD "")
  if t == "" then s else
  let tgt := jsToUpper (target.getD "ALL")
  let padId : Option Int := padIdQ.map (⌊·⌋)
  let padIds : List Int :=
    match padId with
    | some pid =>
        if tgt == "PAD" then [pid]
        else s.boardState.pads.map (fun p => (p.id : Int))
    | none => s.boardState.pads.map (fun p => (p.id : Int))
  let s := { s with uidCounter := s.uidCounter + 1 }
  let msg : ChatMessage := {
    id := uid s.uidCounter, ts := nowMs, from_ := "ADMIN",
    text := "📣 BROADCAST: " ++ t }
  let s := { s with uidCounter := s.uidCounter + 1 }
  padIds.foldl (fun acc pid => appendChatToPad pid msg acc) s

/-!
## Roster build and reload pipeline (`lib/roster.ts`,
`pages/api/reload-roster.ts`, `lib/state.ts`)
-/

/-- A parsed roster CSV row (`lib/roster.ts` `RosterRow`). -/
structure RosterRow where
  teamCode : String
  brigade : String
  schoolName : String
  division : String
  category : String
deriving Repr, DecidableEq

/-- `toDivision`. -/
def toDivision (div : String) : String :=
  if "jun".data.isPrefixOf (jsToLower div).data then "Jr" else "Sr"

/-- `assignPad` (the fixed category-to-pad truth table; unmatched
categories fall back to pad 1). -/
def assignPad (row : RosterRow) : Nat :=
  let category := jsToLower (jsTrim row.category)
  let div := toDivision row.division
  if category == "unarmed platoon" then 1
  else if category == "armed platoon" then 2
  else if category == "color guard" then (if div == "Jr" then 7 else 8)
  else if category == "unarmed squad" then 5
  else if category == "armed squad" then 6
  else if category == "exhibition drill" then (if div == "Jr" then 3 else 4)
  else 1

/-- The fixed `padLabels` table. -/
def padLabels : List String :=
  ["Unarmed Platoon (Jr/Sr)", "Armed Platoon (Jr/Sr)",
   "Exhibition (Jr)", "Exhibition (Sr)",
   "Unarmed Squad (Jr/Sr)", "Armed Squad (Jr/Sr)",
   "Color Guard (Jr)", "Color Guard (Sr)"]

/-- The pure core of `buildStateFromRosterCsv` (after the CSV has been
parsed into rows; file IO and parse failures return `null` upstream).
Buckets teams into pads 1..8 in CSV order and seats `teams[0]`/`teams[1]`
straight into `now`/`onDeck`. The built state carries no event fields,
no schedule, no stats and `reportByDeadlineAt = null` everywhere. -/
def buildStateFromRoster (rows : List RosterRow) (nowMs : Nat) : BoardState :=
  let teamOf : RosterRow → Team := fun r =>
    { id := r.teamCode,
      name := r.schoolName ++ " (" ++ r.teamCode ++ ")",
      unit := some r.brigade,
      category := some r.category,
      division := some (toDivision r.division) }
  let pads := (List.range 8).map (fun idx =>
    let id := idx + 1
    let teams := (rows.filter (fun r => assignPad r == id)).map teamOf
    { id := id,
      name := "Pad " ++ toString id,
      label := (padLabels[idx]?).getD "Event",
      now := teams[0]?,
      onDeck := teams[1]?,
      standby := teams.drop 2,
      note := "",
      nowArrivedAt := none, nowArrivedTeamId := none,
      lastCompleteAt := none,
      reportByDeadlineAt := none, reportByTeamId := none,
      updatedAt := nowMs : Pad })
  let nextPadId :=
    (if pads.length > 0 then pads.foldl (fun m p => max m p.id) 0 else 0) + 1
  { pads := pads, updatedAt := nowMs, nextPadId := nextPadId }

/-- `createInitialState` from `lib/state.ts`. -/
def createInitialState (nowMs : Nat) : BoardState :=
  { pads := [], nextPadId := 1, updatedAt := nowMs,
    globalBreakStartAt := none, globalBreakUntilAt := none,
    globalBreakReason := none,
    globalMessage := none, globalMessageUntilAt := none,
    schedule := some [], scheduleUpdatedAt := some nowMs,
    cycleStatsByPad := some [], cycleStatsByKey := some [],
    avgCycleSecondsByPad := some [],
    eventHeaderLabel := some "COMPETITION MATRIX",
    eventStatus := some .PLANNING, eventStartAt := none,
    eventPaused := some false, eventPausedAt := none,
    eventPausedAccumMs := some 0 }

/-- The pure core of the `pages/api/reload-roster.ts` handler: build the
next state from the roster (or fall back to a fresh initial state),
carry the global fields over from the previous state, force the event
to PLANNING unless it was already LIVE, and run the sanitation pass.
`rows = none` models a missing/unreadable roster file. -/
def reloadRosterHandler (rows : Option (List RosterRow))
    (prev : Option BoardState) (nowMs : Nat) : BoardState :=
  let nextState :=
    match rows with
    | some rs => buildStateFromRoster rs nowMs
    | none => createInitialState nowMs
  let nextState :=
    match prev with
    | some prev =>
        let wasLive := prev.eventStatus == some .LIVE
        { nextState with
          globalBreakStartAt := prev.globalBreakStartAt,
          globalBreakUntilAt := prev.globalBreakUntilAt,
          globalBreakReason := prev.globalBreakReason,
          globalMessage := prev.globalMessage,
          globalMessageUntilAt := prev.globalMessageUntilAt,
          schedule := some (prev.schedule.getD []),
          scheduleUpdatedAt := some (prev.scheduleUpdatedAt.getD nowMs),
          eventHeaderLabel := some (prev.eventHeaderLabel.getD "COMPETITION MATRIX"),
          eventStatus := some (if wasLive then .LIVE else .PLANNING),
          eventStartAt := prev.eventStartAt,
          eventPaused := some (prev.eventPaused.getD false),
          eventPausedAt := prev.eventPausedAt,
          eventPausedAccumMs := some (prev.eventPausedAccumMs.getD 0) }
    | none =>
        { nextState with
          eventStatus := some .PLANNING, eventStartAt := none,
          eventPaused := some false, eventPausedAt := none,
          eventPausedAccumMs := some 0 }
  sanitizeStateAfterAnyLoad nextState nowMs

/-!
## Durable comm-state load (`lib/commPersistence.ts`)

The JSON scalar model: `JNum` is the result of a JavaScript `Number(...)`
coercion; `JScalar` is a scalar JSON field value (`undefined` models an
absent key).
-/

/-- Result of the JavaScript `Number(...)` coercion. -/
inductive JNum where
  | nan | inf | ninf
  | fin (q : Rat)
deriving Repr, DecidableEq

/-- `Number.isFinite`. -/
def JNum.isFinite : JNum → Bool
  | .fin _ => true
  | _ => false

/-- A scalar JSON field value (`jundef` = absent key). -/
inductive JScalar where
  | jnull | jundef
  | jbool (b : Bool)
  | jnum (n : JNum)
  | jstr (s : String)
deriving Repr, DecidableEq

/-- `x != null` (JavaScript loose inequality against `null`, false for
both `null` and `undefined`). -/
def JScalar.isNonNullish : JScalar → Bool
  | .jnull => false
  | .jundef => false
  | _ => true

/-- `typeof x === "string"`. -/
def JScalar.isStr : JScalar → Bool
  | .jstr _ => true
  | _ => false

/-- The string content (for values known to be strings). -/
def JScalar.asStr : JScalar → String
  | .jstr s => s
  | _ => ""

/-- Digit run to natural number. -/
def digitsToNat (cs : List Char) : Nat :=
  cs.foldl (fun a c => a * 10 + (c.toNat - 48)) 0

/-- Model of the JavaScript `Number(string)` coercion: trimmed, empty
means `0`, signed `Infinity` recognized, plain signed decimal literals
(optional fraction) parsed exactly, anything else `NaN` (hex/exponent
literal forms are not exercised by this codebase's durable records). -/
def strToNumber (s : String) : JNum :=
  let t := jsTrim s
  if t == "" then .fin 0
  else if t == "Infinity" || t == "+Infinity" then .inf
  else if t == "-Infinity" then .ninf
  else
    let sgnCs : Int × List Char :=
      match t.toList with
      | '-' :: cs => (-1, cs)
      | '+' :: cs => (1, cs)
      | cs => (1, cs)
    let sgn := sgnCs.1
    let cs := sgnCs.2
    let intPart := cs.takeWhile (·.isDigit)
    let rest := cs.dropWhile (·.isDigit)
    match rest with
    | [] =>
        if intPart.isEmpty then .nan
        else .fin (((sgn * (digitsToNat intPart : Int) : Int)) : Rat)
    | '.' :: frac =>
        if frac.all (·.isDigit) && !(intPart.isEmpty && frac.isEmpty) then
          .fin (Rat.divInt
            (sgn * ((digitsToNat intPart * 10 ^ frac.length +
              digitsToNat frac : Nat) : Int))
            ((10 : Int) ^ frac.length))
        else .nan
    | _ => .nan

/-- `Number(x)` over the scalar model. -/
def toNumber : JScalar → JNum
  | .jnull => .fin 0
  | .jundef => .nan
  | .jbool b => .fin (if b then 1 else 0)
  | .jnum n => n
  | .jstr s => strToNumber s

/-- A raw persisted message record as found in the durable file (fields
hold arbitrary scalar JSON values; absent keys are `jundef`). -/
structure RawMsg where
  id : JScalar := .jundef
  ts : JScalar := .jundef
  from_ : JScalar := .jundef
  text : JScalar := .jundef
  urgent : JScalar := .jundef
  ackedAt : JScalar := .jundef
deriving Repr, DecidableEq

/-- `PersistedChatMessage` after load sanitization (its `ts` keeps the
raw `Number` result so the dropping filter is stated on it). -/
structure PersistedChatMessage where
  id : String
  ts : JNum
  from_ : String
  text : String
  urgent : Bool
  ackedAt : Option Rat
deriving Repr, DecidableEq

/-- `parseUrgent`: strictly `true` or the legacy string `"true"`. -/
def parseUrgent (m : RawMsg) : Bool :=
  m.urgent == .jbool true || m.urgent == .jstr "true"

/-- `parsePadKey`: `Number(k)` must be an integer `>= 1`. -/
def parsePadKey (k : String) : Option Int :=
  match strToNumber k with
  | .fin q => if q.den == 1 && q.num ≥ 1 then some q.num else none
  | _ => none

/-- The `.map` body of `loadCommState`: coerce `ts`, coerce `ackedAt`
only when non-nullish and keep it only when finite, normalize `from`,
and parse `urgent` strictly. -/
def loadMsg (m : RawMsg) : PersistedChatMessage :=
  let ts := toNumber m.ts
  let ackedAt : Option Rat :=
    if m.ackedAt.isNonNullish then
      match toNumber m.ackedAt with
      | .fin q => some q
      | _ => none
    else none
  { id := m.id.asStr, ts := ts,
    from_ := if m.from_ == .jstr "JUDGE" then "JUDGE" else "ADMIN",
    text := m.text.asStr, urgent := parseUrgent m, ackedAt := ackedAt }

/-- One channel's entry list through `loadCommState`'s shape filter,
sanitizing map and timestamp filter (`none` entries model array slots
that are `null` or not objects). -/
def loadChannel (entries : List (Option RawMsg)) : List PersistedChatMessage :=
  (((entries.filterMap (fun e =>
      match e with
      | some m => if m.id.isStr && m.text.isStr then some m else none
      | none => none)).map loadMsg).filter
    (fun m => m.ts.isFinite && !(m.ts == .nan) && m.ts != .inf && m.ts != .ninf))

/-- The pure core of `loadCommState` over the parsed `channels` record
(a channel value that is not an array is `none` and is skipped). -/
def loadChannels (channels : List (String × Option (List (Option RawMsg)))) :
    List (Int × List PersistedChatMessage) :=
  channels.foldl (fun result kv =>
    match parsePadKey kv.1 with
    | none => result
    | some padId =>
        match kv.2 with
        | none => result
        | some entries => alistSet result padId (loadChannel entries)) []

/-!
## Shared lemmas
-/

/-- Every message surviving `loadChannel` has a finite timestamp. -/
lemma loadChannel_ts_finite (entries : List (Option RawMsg)) :
    ∀ m ∈ loadChannel entries, m.ts.isFinite = true := by
  intro m hm
  unfold loadChannel at hm
  have := List.of_mem_filter hm
  exact (Bool.and_elim_left (Bool.and_elim_left (Bool.and_elim_left this)))

/-- Members of `alistSet l k v` are `(k, v)` or members of `l`. -/
lemma mem_alistSet [BEq κ] (l : List (κ × α)) (k : κ) (v : α) :
    ∀ kv ∈ alistSet l k v, kv = (k, v) ∨ kv ∈ l := by
  induction l with
  | nil => intro kv hkv; simp [alistSet] at hkv; simp [hkv]
  | cons hd tl ih =>
      intro kv hkv
      by_cases h : (hd.1 == k) = true
      · simp [alistSet, h] at hkv
        rcases hkv with h1 | h1
        · left; simp [h1]
        · right; simp [h1]
      · simp [alistSet, h] at hkv
        rcases hkv with h1 | h1
        · right; simp [h1]
        · rcases ih kv h1 with h2 | h2
          · left; exact h2
          · right; simp [h2]

/-- All channel values produced by `loadChannels` consist of
finite-timestamp messages. -/
lemma loadChannels_ts_finite (channels :
    List (String × Option (List (Option RawMsg)))) :
    ∀ kv ∈ loadChannels channels, ∀ m ∈ kv.2, m.ts.isFinite = true := by
  unfold loadChannels
  suffices h : ∀ (acc : List (Int × List PersistedChatMessage)),
      (∀ kv ∈ acc, ∀ m ∈ kv.2, m.ts.isFinite = true) →
      ∀ kv ∈ channels.foldl (fun result kv =>
        match parsePadKey kv.1 with
        | none => result
        | some padId =>
            match kv.2 with
            | none => result
            | some entries => alistSet result padId (loadChannel entries)) acc,
      ∀ m ∈ kv.2, m.ts.isFinite = true by
    exact h [] (by intro kv hkv; simp at hkv)
  induction channels with
  | nil => intro acc hacc kv hkv; exact hacc kv hkv
  | cons c rest ih =>
      intro acc hacc kv hkv
      simp only [List.foldl_cons] at hkv
      refine ih _ ?_ kv hkv
      intro kv' hkv' m hm
      rcases hc : parsePadKey c.1 with _ | padId
      · rw [hc] at hkv'; exact hacc kv' hkv' m hm
      · rcases hv : c.2 with _ | entries
        · rw [hc, hv] at hkv'; exact hacc kv' hkv' m hm
        · rw [hc, hv] at hkv'
          rcases mem_alistSet _ _ _ kv' hkv' with h1 | h1
          · subst h1; exact loadChannel_ts_finite entries m hm
          · exact hacc kv' h1 m hm

/-- A rejected channel key leaves the load result unchanged, wherever
the entry sits in the record. -/
lemma loadChannels_skip_bad_key (pre post :
    List (String × Option (List (Option RawMsg))))
    (k : String) (v : Option (List (Option RawMsg)))
    (hk : parsePadKey k = none) :
    loadChannels (pre ++ (k, v) :: post) = loadChannels (pre ++ post) := by
  unfold loadChannels
  rw [List.foldl_append, List.foldl_append, List.foldl_cons, hk]

/-!
## C10 — durable-load sanitization
-/

/-- A durable-record message with a well-formed finite timestamp. -/
def rawGoodMsg : RawMsg :=
  { id := .jstr "b", ts := .jnum (.fin 1234567890),
    from_ := .jstr "ADMIN", text := .jstr "good" }

/-- A durable-record message whose `ts` is the string `"x"` (which
`Number(...)` coerces to NaN). -/
def rawBadTsMsg : RawMsg :=
  { id := .jstr "a", ts := .jstr "x", from_ := .jstr "ADMIN",
    text := .jstr "bad" }

/-- A durable-record message whose `ackedAt` is the string `"x"`. -/
def rawAckedXMsg : RawMsg :=
  { id := .jstr "a", ts := .jnum (.fin 1234567890), from_ := .jstr "ADMIN",
    text := .jstr "hi", urgent := .jbool true, ackedAt := .jstr "x" }

/-- A durable-record message whose `urgent` is the string `"false"`. -/
def rawUrgentFalseMsg : RawMsg :=
  { id := .jstr "a", ts := .jnum (.fin 1234567890), from_ := .jstr "ADMIN",
    text := .jstr "hi", urgent := .jstr "false" }

/-- C10: for every durable messaging record given to `loadCommState`:
a message whose `ts` coerces to NaN or infinity is dropped entirely
(every loaded message has a finite, unclamped timestamp); an `ackedAt`
that does not coerce to a finite number loads as unacknowledged; an
`urgent` of the string `"false"` loads as `false`; and a channel key
that is not a positive integer (such as `"1.9"`) is rejected wherever it
sits, so it cannot affect channel `1`. -/
theorem C10_load_sanitization :
    (∀ channels, ∀ kv ∈ loadChannels channels, ∀ m ∈ kv.2,
        m.ts.isFinite = true) ∧
    (∀ m : RawMsg, (toNumber m.ackedAt).isFinite = false →
        (loadMsg m).ackedAt = none) ∧
    (∀ m : RawMsg, m.urgent = .jstr "false" → (loadMsg m).urgent = false) ∧
    (∀ pre post k v, parsePadKey k = none →
        loadChannels (pre ++ (k, v) :: post) = loadChannels (pre ++ post)) ∧
    loadChannel [some rawBadTsMsg, some rawGoodMsg] = [loadMsg rawGoodMsg] ∧
    (loadMsg rawGoodMsg).ts = .fin 1234567890 ∧
    (loadMsg rawAckedXMsg).ackedAt = none ∧
    (loadMsg rawUrgentFalseMsg).urgent = false ∧
    loadChannels [("1", some [some rawGoodMsg]), ("1.9", some [some rawBadTsMsg])]
      = [((1 : Int), [loadMsg rawGoodMsg])] ∧
    parsePadKey "1.9" = none ∧ parsePadKey "1" = some 1 := by
  refine ⟨loadChannels_ts_finite, ?_, ?_, loadChannels_skip_bad_key,
    by decide, by decide, by decide, by decide, by decide, by decide, by decide⟩
  · intro m h
    unfold loadMsg
    by_cases hn : m.ackedAt.isNonNullish
    · simp only [hn]
      rcases h2 : toNumber m.ackedAt with _ | _ | _ | q
      all_goals simp_all [JNum.isFinite]
    · simp [hn]
  · intro m h
    simp [loadMsg, parseUrgent, h]

/-- C10 witness: the hypotheses of the conditional conjuncts hold at the
concrete durable-record inputs. -/
theorem C10_load_sanitization_witness :
    (loadMsg rawAckedXMsg).ackedAt = none ∧
    (loadMsg rawUrgentFalseMsg).urgent = false ∧
    loadChannels ([("1", some [some rawGoodMsg])] ++
        ("1.9", some [some rawBadTsMsg]) :: []) =
      loadChannels ([("1", some [some rawGoodMsg])] ++ []) :=
  ⟨C10_load_sanitization.2.1 rawAckedXMsg (by decide),
   C10_load_sanitization.2.2.1 rawUrgentFalseMsg (by decide),
   C10_load_sanitization.2.2.2.1 [("1", some [some rawGoodMsg])] []
     "1.9" (some [some rawBadTsMsg]) (by decide)⟩

/-- `find?` after `updateFirstPad` returns the replacement, provided the
original lookup succeeded and the replacement keeps the id. -/
lemma find?_updateFirstPad {pads : List Pad} {pid : Int} {pad : Pad}
    (newPad : Pad)
    (h : pads.find? (fun p => (p.id : Int) == pid) = some pad)
    (hid : ((newPad.id : Int) == pid) = true) :
    (updateFirstPad pads pid newPad).find? (fun p => (p.id : Int) == pid)
      = some newPad := by
  induction pads with
  | nil => simp [List.find?] at h
  | cons p rest ih =>
      by_cases hp : ((p.id : Int) == pid) = true
      · simp only [updateFirstPad, hp, if_true]
        exact List.find?_cons_of_pos _ hid
      · rw [List.find?_cons_of_neg _ (by simp [hp])] at h
        simp only [updateFirstPad, hp, if_false, Bool.false_eq_true]
        rw [List.find?_cons_of_neg _ (by simp [hp])]
        exact ih h

/-- `updateCycleStats` leaves the pad list untouched. -/
lemma updateCycleStats_pads (b : BoardState) (p : Pad) (d : Rat) (t : Nat) :
    (updateCycleStats b p d t).pads = b.pads := by
  simp [updateCycleStats]

/-- `pushAudit` does not touch the board state. -/
lemma pushAudit_boardState (ts : Nat) (padId : Option Int)
    (action detail : String) (s : ServerState) :
    (pushAudit ts padId action detail s).boardState = s.boardState := by
  simp only [pushAudit]

/-- `pushAudit` does not touch the undo stacks. -/
lemma pushAudit_padHistory (ts : Nat) (padId : Option Int)
    (action detail : String) (s : ServerState) :
    (pushAudit ts padId action detail s).padHistory = s.padHistory := by
  simp only [pushAudit]

/-- `pushAudit` does not touch the chat channels. -/
lemma pushAudit_commChannels (ts : Nat) (padId : Option Int)
    (action detail : String) (s : ServerState) :
    (pushAudit ts padId action detail s).commChannels = s.commChannels := by
  simp only [pushAudit]

/-- `snapshotForUndo` does not touch the board state. -/
lemma snapshotForUndo_boardState (pid : Int) (s : ServerState) :
    (snapshotForUndo pid s).boardState = s.boardState := by
  simp only [snapshotForUndo]

/-- `snapshotForUndo` does not touch the audit log. -/
lemma snapshotForUndo_audit (pid : Int) (s : ServerState) :
    (snapshotForUndo pid s).audit = s.audit := by
  simp only [snapshotForUndo]

/-- `snapshotForUndo` does not touch the chat channels. -/
lemma snapshotForUndo_commChannels (pid : Int) (s : ServerState) :
    (snapshotForUndo pid s).commChannels = s.commChannels := by
  simp only [snapshotForUndo]

/-!
## Concrete fixtures
-/

/-- A concrete team. -/
def teamA : Team := { id := "A", name := "Alpha" }

/-- A concrete team. -/
def teamB : Team := { id := "B", name := "Bravo" }

/-- A concrete team. -/
def teamC : Team := { id := "C", name := "Charlie" }

/-- A concrete pad with `now`/`onDeck` occupied and one standby team. -/
def padOne : Pad :=
  { id := 1, name := "Pad 1", label := "L",
    now := some teamA, onDeck := some teamB, standby := [teamC],
    note := "", nowArrivedAt := none, nowArrivedTeamId := none,
    lastCompleteAt := none, reportByDeadlineAt := none,
    reportByTeamId := none, updatedAt := 0 }

/-- A concrete board with `padOne` and an active global break window. -/
def boardBreak : BoardState :=
  { pads := [padOne], nextPadId := 2, updatedAt := 0,
    globalBreakStartAt := some 1, globalBreakUntilAt := some 1000 }

/-- Server globals around `boardBreak`. -/
def srvBreak : ServerState :=
  { boardState := boardBreak, padHistory := [], audit := [],
    uidCounter := 0, commChannels := [] }

/-- A concrete board with `padOne` and no break windows. -/
def boardQuiet : BoardState :=
  { pads := [padOne], nextPadId := 2, updatedAt := 0 }

/-- Server globals around `boardQuiet`. -/
def srvQuiet : ServerState :=
  { boardState := boardQuiet, padHistory := [], audit := [],
    uidCounter := 0, commChannels := [] }

/-!
## C7 — global break blocks Complete
-/

/-- C7: while a global break is active, a `judge:complete` command on
any pad is a no-op — the board state, undo stacks and chat channels are
unchanged — and exactly one audit entry recording the block by the
global break is appended. -/
theorem C7_complete_blocked_by_global_break
    (data : SockData) (payload : PadIdPayload) (nowMs : Nat)
    (s : ServerState) (padId : Int) (pad : Pad)
    (hrole : data.role = .judge)
    (hpid : resolvePadId payload = some padId)
    (hpad : getPadById s.boardState padId = some pad)
    (hbreak : globalBreakActive s.boardState nowMs = true)
    (hcap : s.audit.length < MAX_AUDIT) :
    (handleJudgeComplete data payload nowMs s).boardState = s.boardState ∧
    (handleJudgeComplete data payload nowMs s).padHistory = s.padHistory ∧
    (handleJudgeComplete data payload nowMs s).commChannels = s.commChannels ∧
    (handleJudgeComplete data payload nowMs s).audit = s.audit ++
      [{ id := uid s.uidCounter, ts := nowMs, padId := some padId,
         action := "COMPLETE_BLOCKED",
         detail := "Blocked by global break." }] := by
  simp [handleJudgeComplete, hrole, hpid, hpad, hbreak, pushAudit]
  intro h
  exact absurd h (by omega)

/-- C7 witness: the block at a concrete broken state. -/
theorem C7_complete_blocked_witness :
    (handleJudgeComplete ⟨.judge, none⟩ (padPayload 1) 5 srvBreak).boardState
        = srvBreak.boardState ∧
    (handleJudgeComplete ⟨.judge, none⟩ (padPayload 1) 5 srvBreak).padHistory
        = srvBreak.padHistory ∧
    (handleJudgeComplete ⟨.judge, none⟩ (padPayload 1) 5 srvBreak).commChannels
        = srvBreak.commChannels ∧
    (handleJudgeComplete ⟨.judge, none⟩ (padPayload 1) 5 srvBreak).audit
        = srvBreak.audit ++
      [{ id := uid srvBreak.uidCounter, ts := 5, padId := some 1,
         action := "COMPLETE_BLOCKED",
         detail := "Blocked by global break." }] :=
  C7_complete_blocked_by_global_break ⟨.judge, none⟩ (padPayload 1) 5
    srvBreak 1 padOne rfl (by decide) (by decide) (by decide) (by decide)

/-!
## C2 — Complete advances the queue
-/

/-- The pad a successful `judge:complete` stores back: the handler's
advance/clear/restart chain applied to the found pad. -/
lemma handleJudgeComplete_getPad
    (data : SockData) (payload : PadIdPayload) (nowMs : Nat)
    (s : ServerState) (padId : Int) (pad : Pad)
    (hrole : data.role = .judge)
    (hpid : resolvePadId payload = some padId)
    (hpad : getPadById s.boardState padId = some pad)
    (hnobreak : globalBreakActive s.boardState nowMs = false) :
    getPadById (handleJudgeComplete data payload nowMs s).boardState padId
      = some (startReportTimerForNow
          { clearArrivalForNow
              { pad with
                lastCompleteAt := some nowMs, lastRunEndedAt := some nowMs,
                now := pad.onDeck, onDeck := pad.standby.head?,
                standby := pad.standby.tail } with
            breakStartAt := none } nowMs) := by
  have hpad' : s.boardState.pads.find? (fun p => ((p.id : Int) == padId))
      = some pad := hpad
  have hfound : ((pad.id : Int) == padId) = true := by
    have h2 := List.find?_some hpad'
    simpa using h2
  have hid : ((((startReportTimerForNow
      { clearArrivalForNow
          { pad with
            lastCompleteAt := some nowMs, lastRunEndedAt := some nowMs,
            now := pad.onDeck, onDeck := pad.standby.head?,
            standby := pad.standby.tail } with
        breakStartAt := none } nowMs).id : Nat) : Int) == padId) = true := by
    simpa [startReportTimerForNow, clearArrivalForNow, setStatus] using hfound
  unfold handleJudgeComplete
  rw [hpid]
  simp only [hrole, bne_self_eq_false, Bool.false_eq_true, if_false, hpad,
    hnobreak, pushAudit_boardState]
  rcases hrs : (pad.runStartedAt <|> pad.nowArrivedAt) with _ | r
  · simp only [hrs]
    simpa [getPadById] using find?_updateFirstPad _ hpad' hid
  · simp only [hrs]
    by_cases hr0 : (r != 0) = true
    · simp only [hr0, if_true]
      simpa [getPadById, updateCycleStats_pads]
        using find?_updateFirstPad _ hpad' hid
    · simp only [eq_false hr0, if_false]
      simpa [getPadById] using find?_updateFirstPad _ hpad' hid

/-- C2: when not blocked by a global break, `judge:complete` advances
the pad: the new `now` is the prior `onDeck`, the new `onDeck` is the
prior standby head (empty if standby was empty), the new standby is the
prior standby without its head, arrival bookkeeping is cleared, and the
report timer is restarted for the new occupant (or cleared when `now`
is left empty). -/
theorem C2_complete_advances_queue
    (data : SockData) (payload : PadIdPayload) (nowMs : Nat)
    (s : ServerState) (padId : Int) (pad : Pad)
    (hrole : data.role = .judge)
    (hpid : resolvePadId payload = some padId)
    (hpad : getPadById s.boardState padId = some pad)
    (hnobreak : globalBreakActive s.boardState nowMs = false) :
    ∃ pad', getPadById (handleJudgeComplete data payload nowMs s).boardState
        padId = some pad' ∧
      pad'.now = pad.onDeck ∧
      pad'.onDeck = pad.standby.head? ∧
      pad'.standby = pad.standby.tail ∧
      pad'.nowArrivedAt = none ∧
      pad'.nowArrivedTeamId = none ∧
      pad'.runStartedAt = none ∧
      pad'.reportByTeamId = pad.onDeck.map (·.id) ∧
      pad'.reportByDeadlineAt =
        (if pad.onDeck.isSome then some (nowMs + REPORT_WINDOW_MS) else none) ∧
      pad'.status = some (if pad.onDeck.isSome then .REPORTING else .IDLE) := by
  refine ⟨_, handleJudgeComplete_getPad data payload nowMs s padId pad
    hrole hpid hpad hnobreak, ?_, ?_, ?_, ?_, ?_, ?_, ?_, ?_, ?_⟩
  all_goals simp [startReportTimerForNow, clearArrivalForNow, setStatus]

/-- C2 witness: advancing `padOne` at the concrete quiet state. -/
theorem C2_complete_advances_queue_witness :
    ∃ pad', getPadById (handleJudgeComplete ⟨.judge, none⟩ (padPayload 1) 5
        srvQuiet).boardState 1 = some pad' ∧
      pad'.now = padOne.onDeck ∧
      pad'.onDeck = padOne.standby.head? ∧
      pad'.standby = padOne.standby.tail ∧
      pad'.nowArrivedAt = none ∧
      pad'.nowArrivedTeamId = none ∧
      pad'.runStartedAt = none ∧
      pad'.reportByTeamId = padOne.onDeck.map (·.id) ∧
      pad'.reportByDeadlineAt =
        (if padOne.onDeck.isSome then some (5 + REPORT_WINDOW_MS) else none) ∧
      pad'.status = some (if padOne.onDeck.isSome then .REPORTING else .IDLE) :=
  C2_complete_advances_queue ⟨.judge, none⟩ (padPayload 1) 5 srvQuiet 1 padOne
    rfl (by decide) (by decide) (by decide)

/-!
## C1 — role gating (refuting evaluation)

The source checks `socket.data.role` in most handlers, but registers
`admin:pad:add`, `admin:pad:delete`, `admin:setGlobalMessage`,
`admin:scheduleGlobalBreak`, `admin:setEventHeaderLabel`,
`judge:arrived` and `judge:clear` without any role guard, so a
connection whose verified role claim is `public` mutates the board
through every one of them.
-/

/-- C1 (refuting evaluation): each of the seven unguarded commands,
issued by a connection with the observer/public role, changes the board
state at a concrete input. -/
theorem C1_public_role_mutates_through_unguarded_handlers :
    (handleAdminPadAdd ⟨.public, none⟩ none none 5
        srvQuiet).boardState.pads.length = 2 ∧
    srvQuiet.boardState.pads.length = 1 ∧
    (handleAdminPadDelete ⟨.public, none⟩ (padPayload 1)
        5 srvQuiet).boardState.pads = [] ∧
    (handleAdminSetGlobalMessage ⟨.public, none⟩ (some "Lunch") none 5
        srvQuiet).boardState.globalMessage = some "Lunch" ∧
    srvQuiet.boardState.globalMessage = none ∧
    (handleAdminScheduleGlobalBreak ⟨.public, none⟩ (some 7) none none 5
        srvQuiet).boardState.globalBreakUntilAt = some (7 + 60 * 60 * 1000) ∧
    srvQuiet.boardState.globalBreakUntilAt = none ∧
    (handleAdminSetEventHeaderLabel ⟨.public, none⟩ (some "X")
        5 srvQuiet).boardState.eventHeaderLabel = some "X" ∧
    (getPadById (handleJudgeArrived ⟨.public, none⟩ (padPayload 1) 5
        srvQuiet).boardState 1).map (·.nowArrivedAt) = some (some 5) ∧
    (getPadById (handleJudgeClear ⟨.public, none⟩ (padPayload 1) 5
        srvQuiet).boardState 1).map (·.now) = some none := by
  decide

/-!
## C4 — PLANNING roster load still creates report timers (refuting
evaluation)

`sanitizeStateAfterAnyLoad` starts a report timer for every pad whose
`now` is occupied without checking `eventStatus`, so a roster load while
the event is PLANNING produces a non-null `reportByDeadlineAt`.
-/

/-- A roster row whose category routes it to pad 1. -/
def sampleRosterRow : RosterRow :=
  { teamCode := "T1", brigade := "3rd", schoolName := "School",
    division := "Junior", category := "Unarmed Platoon" }

/-- C4 (refuting evaluation): reloading a one-row roster at time 1000
with no previous state leaves the event PLANNING, seats the team in
pad 1's NOW slot, and nevertheless creates a report deadline at
`1000 + REPORT_WINDOW_MS`. -/
theorem C4_planning_roster_load_creates_timer :
    (reloadRosterHandler (some [sampleRosterRow]) none 1000).eventStatus
        = some .PLANNING ∧
    (getPadById (reloadRosterHandler (some [sampleRosterRow]) none 1000) 1).map
        (fun p => (p.now.map (·.id), p.reportByDeadlineAt))
      = some (some "T1", some (1000 + REPORT_WINDOW_MS)) := by
  decide

/-!
## C8 — area binding (refuting evaluation)

The repo documents a server-validated `judge:area:set` binding gating
all judge pad actions, and the judge client refuses to emit actions
until that handshake is acknowledged; but the server in
`pages/api/socket.ts` registers no such handler — the queue-mutating
judge commands resolve their target pad from the client payload
(`resolvePadId`) and never consult the connection's server-held
binding. Only the messaging commands use `socket.data.padId`.
-/

/-- An empty second pad. -/
def padTwo : Pad :=
  { id := 2, name := "Pad 2", label := "L2",
    now := none, onDeck := none, standby := [],
    note := "", nowArrivedAt := none, nowArrivedTeamId := none,
    lastCompleteAt := none, reportByDeadlineAt := none,
    reportByTeamId := none, updatedAt := 0 }

/-- An urgent, unacknowledged chat message. -/
def urgentMsg : ChatMessage :=
  { id := "m1", ts := 1, from_ := "ADMIN", text := "urgent", urgent := some true }

/-- Server globals with two pads and an urgent message in pad 1's
channel. -/
def srvComm : ServerState :=
  { boardState := { pads := [padOne, padTwo], nextPadId := 3, updatedAt := 0 },
    padHistory := [], audit := [], uidCounter := 0,
    commChannels := [(1, [urgentMsg])] }

/-- C8 (refuting evaluation): a judge connection that never completed
any bind handshake (`socket.data.padId = none`) still advances pad 1 by
sending `judge:complete {padId: 1}`; the affected pad is determined by
the payload, not the server-held binding (the handler's result is
independent of the binding); only the messaging commands use the
binding — a cross-area acknowledge is a no-op while the bound-area
acknowledge lands. -/
theorem C8_payload_pad_id_not_server_binding :
    (getPadById (handleJudgeComplete ⟨.judge, none⟩ (padPayload 1) 5
        srvQuiet).boardState 1).map (fun p => p.now.map (·.id))
      = some (some "B") ∧
    (getPadById srvQuiet.boardState 1).map (fun p => p.now.map (·.id))
      = some (some "A") ∧
    (∀ (b1 b2 : Option Int) (payload : PadIdPayload) (t : Nat)
        (s : ServerState),
      handleJudgeComplete ⟨.judge, b1⟩ payload t s
        = handleJudgeComplete ⟨.judge, b2⟩ payload t s) ∧
    handleJudgeCommAck ⟨.judge, some 2⟩ (some "m1") 9 srvComm = srvComm ∧
    (alistGet (handleJudgeCommAck ⟨.judge, some 1⟩ (some "m1") 9
        srvComm).commChannels 1 []).map (·.ackedAt) = [some 9] := by
  refine ⟨by decide, by decide, fun b1 b2 payload t s => rfl, by decide,
    by decide⟩

/-!
## C9 — acknowledge monotonicity
-/

/-- The messaging commands, for quantifying over the channel store's
mutators. -/
inductive CommOp where
  | adminSend (data : SockData) (toPadId : Option Rat) (text : Option String)
      (urgentFlag : Bool)
  | judgeSend (data : SockData) (text : Option String)
  | judgeAck (data : SockData) (messageId : Option String)
  | broadcast (data : SockData) (text target : Option String)
      (padIdQ : Option Rat)

/-- Dispatch a messaging command to its handler. -/
def applyCommOp : CommOp → Nat → ServerState → ServerState
  | .adminSend d p txt u => handleAdminCommSend d p txt u
  | .judgeSend d txt => handleJudgeCommSend d txt
  | .judgeAck d m => handleJudgeCommAck d m
  | .broadcast d txt tg p => handleAdminCommBroadcast d txt tg p

/-- A message evolves across one command by at most getting its unset
`ackedAt` stamped with the command's time. -/
def ackMono (t : Nat) (m m' : ChatMessage) : Prop :=
  m' = m ∨ (m.ackedAt = none ∧ m' = { m with ackedAt := some t })

/-- Reading back the key just written. -/
lemma alistGet_alistSet_self [BEq κ] [LawfulBEq κ] (l : List (κ × α))
    (k : κ) (v d : α) : alistGet (alistSet l k v) k d = v := by
  induction l with
  | nil => simp [alistSet, alistGet]
  | cons kv rest ih =>
      by_cases h : (kv.1 == k) = true
      · simp [alistSet, h, alistGet]
      · simp only [alistSet, h, Bool.false_eq_true, if_false]
        simpa [alistGet, List.find?_cons_of_neg, h] using ih

/-- Writing one key does not disturb another. -/
lemma alistGet_alistSet_ne [BEq κ] [LawfulBEq κ] {c k : κ}
    (h : c ≠ k) (l : List (κ × α)) (v : α) (d : α) :
    alistGet (alistSet l k v) c d = alistGet l c d := by
  have hkc : (k == c) = false := beq_eq_false_iff_ne.mpr (Ne.symm h)
  induction l with
  | nil => simp [alistSet, alistGet, List.find?, hkc]
  | cons kv rest ih =>
      by_cases hh : (kv.1 == k) = true
      · have hev : kv.1 = k := eq_of_beq hh
        have hc1 : (kv.1 == c) = false := by rw [hev]; exact hkc
        unfold alistGet
        simp only [alistSet, hh, if_true]
        rw [List.find?_cons_of_neg (p := fun (kv : κ × α) => kv.1 == c) _ (by simp [hkc]),
          List.find?_cons_of_neg (p := fun (kv : κ × α) => kv.1 == c) _ (by simp [hc1])]
      · have hset : alistSet (kv :: rest) k v = kv :: alistSet rest k v := by
          simp [alistSet, hh]
        rw [hset]
        by_cases hc2 : (kv.1 == c) = true
        · unfold alistGet
          rw [List.find?_cons_of_pos (p := fun (kv : κ × α) => kv.1 == c) _ hc2,
            List.find?_cons_of_pos (p := fun (kv : κ × α) => kv.1 == c) _ hc2]
        · unfold alistGet
          rw [List.find?_cons_of_neg (p := fun (kv : κ × α) => kv.1 == c) _ (by simp [hc2]),
            List.find?_cons_of_neg (p := fun (kv : κ × α) => kv.1 == c) _ (by simp [hc2])]
          exact ih

/-- `updFirstBy` with an ack-stamping update relates pointwise by
`ackMono`, provided every element the predicate selects is unacked. -/
lemma forall₂_ackMono_updFirstBy (t : Nat) (p : ChatMessage → Bool)
    (hp : ∀ x, p x = true → x.ackedAt = none) (l : List ChatMessage) :
    List.Forall₂ (ackMono t) l
      (updFirstBy p (fun m => { m with ackedAt := some t }) l) := by
  induction l with
  | nil => simp [updFirstBy]
  | cons x xs ih =>
      by_cases hx : p x = true
      · simp only [updFirstBy, hx, if_true]
        exact List.Forall₂.cons (Or.inr ⟨hp x hx, rfl⟩)
          (List.forall₂_same.mpr (fun y _ => Or.inl rfl))
      · simp only [updFirstBy, hx, Bool.false_eq_true, if_false]
        exact List.Forall₂.cons (Or.inl rfl) ih

/-- `updFirstBy` with an ack-stamping update relates pointwise by
`ackMono` when the first selected element is known unacked. -/
lemma forall₂_ackMono_updFirstBy_found (t : Nat) (p : ChatMessage → Bool)
    {l : List ChatMessage} {x : ChatMessage}
    (hfind : l.find? p = some x) (hx : x.ackedAt = none) :
    List.Forall₂ (ackMono t) l
      (updFirstBy p (fun m => { m with ackedAt := some t }) l) := by
  induction l with
  | nil => simp at hfind
  | cons y ys ih =>
      by_cases hy : p y = true
      · rw [List.find?_cons_of_pos _ hy] at hfind
        injection hfind with h
        subst h
        simp only [updFirstBy, hy, if_true]
        exact List.Forall₂.cons (Or.inr ⟨hx, rfl⟩)
          (List.forall₂_same.mpr (fun z _ => Or.inl rfl))
      · rw [List.find?_cons_of_neg _ (by simp [hy])] at hfind
        simp only [updFirstBy, hy, Bool.false_eq_true, if_false]
        exact List.Forall₂.cons (Or.inl rfl) (ih hfind)

/-- `updFirstBy` rewrites the first selected element in an explicit
split. -/
lemma updFirstBy_append_first (p : α → Bool) (f : α → α) (a : List α)
    (x : α) (b : List α) (ha : ∀ y ∈ a, p y = false) (hx : p x = true) :
    updFirstBy p f (a ++ x :: b) = a ++ f x :: b := by
  induction a with
  | nil => simp [updFirstBy, hx]
  | cons y ys ih =>
      have hy : p y = false := ha y (by simp)
      simp only [List.cons_append, updFirstBy, hy, Bool.false_eq_true,
        if_false, List.cons.injEq, true_and]
      exact ih (fun z hz => ha z (by simp [hz]))

/-- One `appendChatToPad` leaves every channel an eviction-suffix of the
old channel plus an appended tail: the tail holds only the given
message, and the drop is either nothing or an eviction that keeps the
channel at the `MAX_CHAT_PER_PAD` cap. -/
lemma appendChatToPad_channel (pid : Int) (msg : ChatMessage)
    (s : ServerState) (c : Int) :
    ∃ (k : Nat) (app : List ChatMessage),
      (∀ m ∈ app, m = msg) ∧
      (k = 0 ∨ MAX_CHAT_PER_PAD + k
        ≤ (alistGet s.commChannels c [] ++ app).length) ∧
      alistGet (appendChatToPad pid msg s).commChannels c []
        = ((alistGet s.commChannels c [] ++ app).drop k) ∧
      k ≤ (alistGet s.commChannels c [] ++ app).length := by
  by_cases hc : (c == pid) = true
  · have hceq : c = pid := eq_of_beq hc
    subst hceq
    unfold appendChatToPad
    by_cases hlen : ((alistGet s.commChannels c [] ++ [msg]).length
        > MAX_CHAT_PER_PAD)
    · refine ⟨(alistGet s.commChannels c [] ++ [msg]).length
        - MAX_CHAT_PER_PAD, [msg], by simp, Or.inr (by omega), ?_,
        by omega⟩
      simp only [hlen, if_true, alistGet_alistSet_self]
    · refine ⟨0, [msg], by simp, Or.inl rfl, ?_, by omega⟩
      simp only [hlen, if_false, alistGet_alistSet_self, List.drop_zero]
  · have hne : c ≠ pid := fun he => hc (by simp [he])
    refine ⟨0, [], by simp, Or.inl rfl, ?_, by simp⟩
    unfold appendChatToPad
    rw [alistGet_alistSet_ne hne]
    simp

/-- Folding `appendChatToPad` over any pad list keeps every channel an
eviction-suffix of the old channel plus an appended tail of copies of
the message, the drop never cutting below the cap. -/
lemma foldl_appendChatToPad_channel (pids : List Int) (msg : ChatMessage)
    (s : ServerState) (c : Int) :
    ∃ (k : Nat) (app : List ChatMessage),
      (∀ m ∈ app, m = msg) ∧
      (k = 0 ∨ MAX_CHAT_PER_PAD + k
        ≤ (alistGet s.commChannels c [] ++ app).length) ∧
      alistGet ((pids.foldl (fun acc pid => appendChatToPad pid msg acc)
          s)).commChannels c []
        = ((alistGet s.commChannels c [] ++ app).drop k) ∧
      k ≤ (alistGet s.commChannels c [] ++ app).length := by
  induction pids generalizing s with
  | nil => exact ⟨0, [], by simp, Or.inl rfl, by simp, by simp⟩
  | cons pid rest ih =>
      obtain ⟨k1, a1, hm1, hc1, h1, hk1⟩ := appendChatToPad_channel pid msg s c
      obtain ⟨k2, a2, hm2, hc2, h2, hk2⟩ := ih (appendChatToPad pid msg s)
      rw [h1] at h2 hk2 hc2
      refine ⟨k1 + k2, a1 ++ a2, ?_, ?_, ?_, ?_⟩
      · intro m hm
        rcases List.mem_append.mp hm with h | h
        · exact hm1 m h
        · exact hm2 m h
      · rcases hc2 with h0 | hbig
        · rcases hc1 with h0' | hbig'
          · exact Or.inl (by omega)
          · refine Or.inr ?_
            simp only [List.length_append] at hbig' ⊢
            omega
        · refine Or.inr ?_
          simp only [List.length_append, List.length_drop] at hbig hk1 ⊢
          omega
      · rw [List.foldl_cons, h2, ← List.drop_append_of_le_length hk1,
          List.append_assoc, List.drop_drop, Nat.add_comm]
      · simp only [List.length_append, List.length_drop] at hk1 hk2 ⊢
        omega

/-- `find?` skips a prefix on which it fails. -/
lemma find?_append_of_none (p : α → Bool) (l₁ l₂ : List α)
    (h : l₁.find? p = none) : (l₁ ++ l₂).find? p = l₂.find? p := by
  induction l₁ with
  | nil => simp
  | cons y ys ih =>
      by_cases hy : p y = true
      · rw [List.find?_cons_of_pos _ hy] at h
        exact absurd h (by simp)
      · rw [List.find?_cons_of_neg _ (by simp [hy])] at h
        rw [List.cons_append, List.find?_cons_of_neg _ (by simp [hy])]
        exact ih h

/-- `appendChatToPad` below the eviction cap is a plain append. -/
lemma appendChatToPad_self_no_evict (pid : Int) (msg : ChatMessage)
    (s : ServerState)
    (h : (alistGet s.commChannels pid []).length + 1 ≤ MAX_CHAT_PER_PAD) :
    alistGet (appendChatToPad pid msg s).commChannels pid []
      = alistGet s.commChannels pid [] ++ [msg] := by
  simp only [appendChatToPad]
  rw [alistGet_alistSet_self,
    if_neg (by simp only [List.length_append, List.length_cons,
      List.length_nil, gt_iff_lt, not_lt]; omega)]

/-- The trivial (unchanged-channel) instance of the C9 channel-evolution
shape: nothing stamped, nothing appended, nothing evicted. -/
lemma commEvolution_refl (t : Nat) (l : List ChatMessage) :
    ∃ (mid : List ChatMessage) (k : Nat) (app : List ChatMessage),
      List.Forall₂ (ackMono t) l mid ∧
      (∀ m ∈ app, m.ackedAt = none ∧ m.ts = t) ∧
      (k = 0 ∨ MAX_CHAT_PER_PAD + k ≤ (mid ++ app).length) ∧
      l = (mid ++ app).drop k :=
  ⟨l, 0, [], List.forall₂_same.mpr (fun y _ => Or.inl rfl),
    by simp, Or.inl rfl, by simp⟩

/-- C9: `ackedAt` is set at most once and never cleared. Across every
messaging command, every channel evolves only by (i) each existing
message either staying unchanged or having its previously-unset
`ackedAt` stamped with the command's time (so a set `ackedAt` never
changes), (ii) appending fresh messages — each appended message carries
the command's timestamp and an unset `ackedAt`, so no existing message
can be smuggled into the tail — and (iii) evicting from the front only
down to the `MAX_CHAT_PER_PAD` cap, never further (`k = 0` or
`MAX_CHAT_PER_PAD + k ≤ (mid ++ app).length`), so the drop cannot hide
arbitrary rewrites. Additionally, an explicit acknowledge of a message
whose `ackedAt` is already set is a complete no-op; and the
auto-acknowledge performed before a judge reply stamps exactly the most
recent urgent message with `ackedAt` unset, leaving everything else
intact. -/
theorem C9_ackedAt_set_once :
    (∀ (op : CommOp) (t : Nat) (s : ServerState) (padId : Int),
      ∃ (mid : List ChatMessage) (k : Nat) (app : List ChatMessage),
        List.Forall₂ (ackMono t) (alistGet s.commChannels padId []) mid ∧
        (∀ m ∈ app, m.ackedAt = none ∧ m.ts = t) ∧
        (k = 0 ∨ MAX_CHAT_PER_PAD + k ≤ (mid ++ app).length) ∧
        alistGet (applyCommOp op t s).commChannels padId []
          = (mid ++ app).drop k) ∧
    (∀ (data : SockData) (messageId : Option String) (t : Nat)
        (s : ServerState) (padId : Int) (msg : ChatMessage),
      data.padId = some padId →
      (alistGet s.commChannels padId []).find?
          (fun m => m.id == jsTrim (messageId.getD "")) = some msg →
      msg.ackedAt ≠ none →
      handleJudgeCommAck data messageId t s = s) ∧
    (∀ (data : SockData) (text : Option String) (t : Nat) (s : ServerState)
        (padId : Int) (pre post : List ChatMessage) (x : ChatMessage),
      data.role = .judge →
      data.padId = some padId →
      jsTrim (text.getD "") ≠ "" →
      (getPadById s.boardState padId).isSome = true →
      alistGet s.commChannels padId [] = pre ++ x :: post →
      (msgUrgent x && x.ackedAt == none) = true →
      (∀ y ∈ post, (msgUrgent y && y.ackedAt == none) = false) →
      (pre ++ x :: post).length + 1 ≤ MAX_CHAT_PER_PAD →
      alistGet (handleJudgeCommSend data text t s).commChannels padId []
        = (pre ++ { x with ackedAt := some t } :: post) ++
          [{ id := uid s.uidCounter, ts := t, from_ := "JUDGE",
             text := jsTrim (text.getD "") }]) := by
  refine ⟨?conj1, ?conj2, ?conj3⟩
  case conj2 =>
    intro data messageId t s padId msg hdp hfind hack
    unfold handleJudgeCommAck
    by_cases h1 : (data.role != Role.judge) = true
    · rw [if_pos h1]
    · rw [if_neg h1]
      simp only [hdp]
      by_cases h2 : (!(getPadById s.boardState padId).isSome) = true
      · rw [if_pos h2]
      · rw [if_neg h2]
        by_cases h3 : (jsTrim (messageId.getD "") == "") = true
        · simp only [h3, if_true]
        · simp only [h3, Bool.false_eq_true, if_false]
          rw [hfind]
          have hackb : (msg.ackedAt != none) = true := by simpa using hack
          by_cases h4 : (!msgUrgent msg) = true
          · simp only [h4, if_true]
          · simp only [h4, Bool.false_eq_true, if_false, hackb, if_true]
  case conj3 =>
    intro data text t s padId pre post x hrole hdp htext hpad hch hx hpost hlen
    have hrev : (pre ++ x :: post).reverse = post.reverse ++ x :: pre.reverse := by
      simp
    have hpostrev : ∀ y ∈ post.reverse,
        (msgUrgent y && y.ackedAt == none) = false := by
      intro y hy
      exact hpost y (List.mem_reverse.mp hy)
    have hfind : (alistGet s.commChannels padId []).reverse.find?
        (fun m => msgUrgent m && m.ackedAt == none) = some x := by
      rw [hch, hrev,
        find?_append_of_none _ _ _ (List.find?_eq_none.mpr
          (fun y hy => by simp [hpostrev y hy]))]
      exact List.find?_cons_of_pos _ hx
    have hupd : updFirstBy (fun m => msgUrgent m && m.ackedAt == none)
        (fun m => { m with ackedAt := some t })
        (alistGet s.commChannels padId []).reverse
        = post.reverse ++ { x with ackedAt := some t } :: pre.reverse := by
      rw [hch, hrev]
      exact updFirstBy_append_first _ _ _ _ _ hpostrev hx
    have hrevrev : (post.reverse ++
        { x with ackedAt := some t } :: pre.reverse).reverse
        = pre ++ { x with ackedAt := some t } :: post := by
      simp
    have hcond : (alistGet ({ s with
        commChannels := alistSet s.commChannels padId
          (pre ++ { x with ackedAt := some t } :: post),
        uidCounter := s.uidCounter + 1 } : ServerState).commChannels
        padId []).length + 1 ≤ MAX_CHAT_PER_PAD := by
      show (alistGet (alistSet s.commChannels padId
          (pre ++ { x with ackedAt := some t } :: post)) padId []).length + 1
        ≤ MAX_CHAT_PER_PAD
      rw [alistGet_alistSet_self]
      simp only [List.length_append, List.length_cons] at hlen ⊢
      omega
    have hmain := appendChatToPad_self_no_evict padId
      ({ id := uid s.uidCounter, ts := t, from_ := "JUDGE",
         text := jsTrim (text.getD "") } : ChatMessage)
      ({ s with
          commChannels := alistSet s.commChannels padId
            (pre ++ { x with ackedAt := some t } :: post),
          uidCounter := s.uidCounter + 1 } : ServerState) hcond
    unfold handleJudgeCommSend
    simp only [hrole, bne_self_eq_false, Bool.false_eq_true, if_false]
    rw [if_neg (by simpa using htext), hdp]
    simp only [hpad, Bool.not_true, Bool.false_eq_true, if_false]
    rw [hfind]
    simp only [hupd]
    rw [hrevrev, hmain]
    show alistGet (alistSet s.commChannels padId
        (pre ++ { x with ackedAt := some t } :: post)) padId [] ++ _ = _
    rw [alistGet_alistSet_self]
  case conj1 =>
    intro op t s padId
    have hrefl : List.Forall₂ (ackMono t) (alistGet s.commChannels padId [])
        (alistGet s.commChannels padId []) :=
      List.forall₂_same.mpr (fun y _ => Or.inl rfl)
    rcases op with ⟨d, p, txt, u⟩ | ⟨d, txt⟩ | ⟨d, m⟩ | ⟨d, txt, tg, p⟩
    · -- adminSend
      simp only [applyCommOp]
      unfold handleAdminCommSend
      by_cases h1 : (d.role != Role.admin) = true
      · rw [if_pos h1]; exact commEvolution_refl t _
      · rw [if_neg h1]
        rcases p with _ | q
        · exact commEvolution_refl t _
        · by_cases h2 : (jsTrim (txt.getD "") == "") = true
          · simp only [h2, if_true]; exact commEvolution_refl t _
          · simp only [h2, Bool.false_eq_true, if_false]
            by_cases h3 : (!(getPadById s.boardState ⌊q⌋).isSome) = true
            · simp only [h3, if_true]; exact commEvolution_refl t _
            · simp only [h3, Bool.false_eq_true, if_false]
              obtain ⟨k, app, hmsg, hcond, happ, _⟩ :=
                appendChatToPad_channel ⌊q⌋
                ({ id := uid s.uidCounter, ts := t, from_ := "ADMIN",
                   text := jsTrim (txt.getD ""),
                   urgent := if u then some true else none } : ChatMessage)
                { s with uidCounter := s.uidCounter + 1 } padId
              exact ⟨_, k, app, hrefl,
                fun mm hm => by rw [hmsg mm hm]; exact ⟨rfl, rfl⟩,
                hcond, by simpa using happ⟩
    · -- judgeSend
      simp only [applyCommOp]
      unfold handleJudgeCommSend
      by_cases h1 : (d.role != Role.judge) = true
      · rw [if_pos h1]; exact commEvolution_refl t _
      · rw [if_neg h1]
        by_cases h2 : (jsTrim (txt.getD "") == "") = true
        · simp only [h2, if_true]; exact commEvolution_refl t _
        · simp only [h2, Bool.false_eq_true, if_false]
          rcases hdp : d.padId with _ | padId2
          · simp only [hdp]; exact commEvolution_refl t _
          · simp only [hdp]
            by_cases h3 : (!(getPadById s.boardState padId2).isSome) = true
            · simp only [h3, if_true]; exact commEvolution_refl t _
            · simp only [h3, Bool.false_eq_true, if_false]
              rcases hf : (alistGet s.commChannels padId2 []).reverse.find?
                  (fun m => msgUrgent m && m.ackedAt == none) with _ | target
              · simp only [hf]
                obtain ⟨k, app, hmsg, hcond, happ, _⟩ :=
                  appendChatToPad_channel padId2
                  ({ id := uid s.uidCounter, ts := t, from_ := "JUDGE",
                     text := jsTrim (txt.getD "") } : ChatMessage)
                  { s with uidCounter := s.uidCounter + 1 } padId
                exact ⟨_, k, app, hrefl,
                  fun mm hm => by rw [hmsg mm hm]; exact ⟨rfl, rfl⟩,
                  hcond, by simpa using happ⟩
              · simp only [hf]
                by_cases hc : padId = padId2
                · subst hc
                  obtain ⟨k, app, hmsg, hcond, happ, _⟩ :=
                    appendChatToPad_channel padId
                    ({ id := uid s.uidCounter, ts := t, from_ := "JUDGE",
                       text := jsTrim (txt.getD "") } : ChatMessage)
                    { s with
                      commChannels := alistSet s.commChannels padId
                        ((updFirstBy
                          (fun m => msgUrgent m && m.ackedAt == none)
                          (fun m => { m with ackedAt := some t })
                          (alistGet s.commChannels padId []).reverse).reverse),
                      uidCounter := s.uidCounter + 1 } padId
                  simp only [alistGet_alistSet_self] at happ hcond
                  refine ⟨(updFirstBy
                      (fun m => msgUrgent m && m.ackedAt == none)
                      (fun m => { m with ackedAt := some t })
                      (alistGet s.commChannels padId []).reverse).reverse,
                    k, app, ?_,
                    fun mm hm => by rw [hmsg mm hm]; exact ⟨rfl, rfl⟩,
                    hcond, by simpa using happ⟩
                  have hfa := (List.forall₂_reverse_iff).mpr
                    (forall₂_ackMono_updFirstBy t
                      (fun m => msgUrgent m && m.ackedAt == none)
                      (fun z hz => by
                        have hz2 : (msgUrgent z && (z.ackedAt == none)) = true := hz
                        have hz3 := Bool.and_elim_right hz2
                        simpa using hz3)
                      (alistGet s.commChannels padId []).reverse)
                  simpa using hfa
                · obtain ⟨k, app, hmsg, hcond, happ, _⟩ :=
                    appendChatToPad_channel padId2
                    ({ id := uid s.uidCounter, ts := t, from_ := "JUDGE",
                       text := jsTrim (txt.getD "") } : ChatMessage)
                    { s with
                      commChannels := alistSet s.commChannels padId2
                        ((updFirstBy
                          (fun m => msgUrgent m && m.ackedAt == none)
                          (fun m => { m with ackedAt := some t })
                          (alistGet s.commChannels padId2 []).reverse).reverse),
                      uidCounter := s.uidCounter + 1 } padId
                  simp only [alistGet_alistSet_ne hc] at happ hcond
                  exact ⟨_, k, app, hrefl,
                    fun mm hm => by rw [hmsg mm hm]; exact ⟨rfl, rfl⟩,
                    hcond, by simpa using happ⟩
    · -- judgeAck
      simp only [applyCommOp]
      unfold handleJudgeCommAck
      by_cases h1 : (d.role != Role.judge) = true
      · rw [if_pos h1]; exact commEvolution_refl t _
      · rw [if_neg h1]
        rcases hdp : d.padId with _ | padId2
        · simp only [hdp]; exact commEvolution_refl t _
        · simp only [hdp]
          by_cases h2 : (!(getPadById s.boardState padId2).isSome) = true
          · rw [if_pos h2]; exact commEvolution_refl t _
          · rw [if_neg h2]
            by_cases h3 : (jsTrim (m.getD "") == "") = true
            · simp only [h3, if_true]; exact commEvolution_refl t _
            · simp only [h3, Bool.false_eq_true, if_false]
              rcases hf : (alistGet s.commChannels padId2 []).find?
                  (fun x => x.id == jsTrim (m.getD "")) with _ | msg
              · simp only [hf]; exact commEvolution_refl t _
              · simp only [hf]
                by_cases h4 : (!msgUrgent msg) = true
                · simp only [h4, if_true]; exact commEvolution_refl t _
                · simp only [h4, Bool.false_eq_true, if_false]
                  by_cases h5 : (msg.ackedAt != none) = true
                  · simp only [h5, if_true]; exact commEvolution_refl t _
                  · simp only [h5, Bool.false_eq_true, if_false]
                    by_cases hc : padId = padId2
                    · subst hc
                      refine ⟨updFirstBy (fun x => x.id == jsTrim (m.getD ""))
                          (fun mm => { mm with ackedAt := some t })
                          (alistGet s.commChannels padId []), 0, [], ?_,
                        by simp, Or.inl rfl, ?_⟩
                      · exact forall₂_ackMono_updFirstBy_found t _ hf
                          (by simpa using h5)
                      · simp [alistGet_alistSet_self]
                    · refine ⟨alistGet s.commChannels padId [], 0, [],
                        hrefl, by simp, Or.inl rfl, ?_⟩
                      simp [alistGet_alistSet_ne hc]
    · -- broadcast
      simp only [applyCommOp]
      unfold handleAdminCommBroadcast
      by_cases h1 : (d.role != Role.admin) = true
      · rw [if_pos h1]; exact commEvolution_refl t _
      · rw [if_neg h1]
        by_cases h2 : (jsTrim (txt.getD "") == "") = true
        · simp only [h2, if_true]; exact commEvolution_refl t _
        · simp only [h2, Bool.false_eq_true, if_false]
          rcases p with _ | q
          · obtain ⟨k, app, hmsg, hcond, happ, _⟩ :=
              foldl_appendChatToPad_channel
              (s.boardState.pads.map (fun pd => ((pd.id : Nat) : Int)))
              ({ id := uid (s.uidCounter + 1), ts := t, from_ := "ADMIN",
                 text := "📣 BROADCAST: " ++ jsTrim (txt.getD "") } : ChatMessage)
              { s with uidCounter := s.uidCounter + 1 + 1 } padId
            exact ⟨_, k, app, hrefl,
              fun mm hm => by rw [hmsg mm hm]; exact ⟨rfl, rfl⟩,
              hcond, by simpa using happ⟩
          · by_cases h3 : (jsToUpper (tg.getD "ALL") == "PAD") = true
            · simp only [Option.map_some, h3, if_true]
              obtain ⟨k, app, hmsg, hcond, happ, _⟩ :=
                foldl_appendChatToPad_channel
                [(⌊q⌋ : Int)]
                ({ id := uid (s.uidCounter + 1), ts := t, from_ := "ADMIN",
                   text := "📣 BROADCAST: " ++ jsTrim (txt.getD "") } : ChatMessage)
                { s with uidCounter := s.uidCounter + 1 + 1 } padId
              exact ⟨_, k, app, hrefl,
                fun mm hm => by rw [hmsg mm hm]; exact ⟨rfl, rfl⟩,
                hcond, by simpa using happ⟩
            · simp only [Option.map_some, h3, Bool.false_eq_true, if_false]
              obtain ⟨k, app, hmsg, hcond, happ, _⟩ :=
                foldl_appendChatToPad_channel
                (s.boardState.pads.map (fun pd => ((pd.id : Nat) : Int)))
                ({ id := uid (s.uidCounter + 1), ts := t, from_ := "ADMIN",
                   text := "📣 BROADCAST: " ++ jsTrim (txt.getD "") } : ChatMessage)
                { s with uidCounter := s.uidCounter + 1 + 1 } padId
              exact ⟨_, k, app, hrefl,
                fun mm hm => by rw [hmsg mm hm]; exact ⟨rfl, rfl⟩,
                hcond, by simpa using happ⟩

/-- An urgent chat message whose `ackedAt` is already set. -/
def ackedMsg : ChatMessage :=
  { id := "m0", ts := 1, from_ := "ADMIN", text := "ping",
    urgent := some true, ackedAt := some 5 }

/-- Server globals with an already-acknowledged urgent message in pad 1's
channel. -/
def srvAcked : ServerState :=
  { boardState := { pads := [padOne, padTwo], nextPadId := 3, updatedAt := 0 },
    padHistory := [], audit := [], uidCounter := 0,
    commChannels := [(1, [ackedMsg])] }

/-- C9 witness: acknowledging the already-acked `m0` at time 9 leaves
`srvAcked` untouched, and a judge reply on `srvComm` stamps the urgent
message with `ackedAt := 9` and appends the reply. -/
theorem C9_ackedAt_set_once_witness :
    handleJudgeCommAck { role := .judge, padId := some 1 } (some "m0") 9
        srvAcked = srvAcked ∧
    alistGet (handleJudgeCommSend { role := .judge, padId := some 1 }
        (some "ok") 9 srvComm).commChannels 1 []
      = [{ urgentMsg with ackedAt := some 9 },
         { id := uid 0, ts := 9, from_ := "JUDGE", text := "ok" }] := by
  refine ⟨?_, ?_⟩
  · exact C9_ackedAt_set_once.2.1 { role := .judge, padId := some 1 }
      (some "m0") 9 srvAcked 1 ackedMsg rfl (by decide) (by decide)
  · exact C9_ackedAt_set_once.2.2 { role := .judge, padId := some 1 }
      (some "ok") 9 srvComm 1 [] [] urgentMsg rfl rfl (by decide)
      (by decide) rfl (by decide) (by decide) (by decide)

/-- Filling `status` changes nothing `isArrivedForNow` reads. -/
lemma isArrivedForNow_set_status (p : Pad) (st : Option PadStatus) :
    isArrivedForNow { p with status := st } = isArrivedForNow p := rfl

/-- Filling `status` changes nothing `localBreakActive` reads. -/
lemma localBreakActive_set_status (p : Pad) (st : Option PadStatus)
    (t : Nat) :
    localBreakActive { p with status := st } t = localBreakActive p t := rfl

/-- A pad whose `now` occupant has a valid recorded arrival. -/
def padArrived : Pad :=
  { padOne with nowArrivedAt := some 50, nowArrivedTeamId := some "A",
                runStartedAt := some 50 }

/-- Server globals holding just `padArrived`, with no global break. -/
def srvArrived : ServerState :=
  { boardState := { pads := [padArrived], nextPadId := 2, updatedAt := 0 },
    padHistory := [], audit := [], uidCounter := 0, commChannels := [] }

/-- A pad with an active local break window and no recorded arrival. -/
def padBreaky : Pad := { padOne with breakUntilAt := some 500 }

/-- C6 (refuting evaluation): `judge:startBreak` at time 100 on
`padArrived` — whose occupant has a valid recorded arrival — sets
`reportByDeadlineAt` to the break end (600100), so immediately
afterwards the deadline is non-null while the local break window is
active AND a valid arrival is recorded for the occupant: two side
conditions of the claimed invariant are violated at once. -/
theorem C6_startBreak_sets_deadline_during_break :
    ((getPadById (handleJudgeStartBreak { role := .judge } (padPayload 1)
        none none 100 srvArrived).boardState 1).map
      (fun p => (p.reportByDeadlineAt, isArrivedForNow p,
                 localBreakActive p 100)))
      = some (some 600100, true, true) := by decide

/-- C6 (amended): what the cited code actually guarantees about
`reportByDeadlineAt`. (a) `startReportTimerForNow` sets the deadline
exactly when `now` is occupied and clears it otherwise; (b) the
sanitation pass (run on every load and before every broadcast) clears
the deadline whenever a valid arrival is recorded; (c) the sanitation
pass never creates a deadline while a local break window is active — the
field passes through unchanged when no valid arrival is recorded.
`judge:startBreak`, by contrast, deliberately repurposes the field as
the break-end deadline (see the refuting evaluation), so the original
three-sided invariant does not hold after a local break starts. -/
theorem C6_deadline_behavior :
    (∀ (pad : Pad) (t : Nat),
      (startReportTimerForNow pad t).reportByDeadlineAt
        = if pad.now.isSome then some (t + REPORT_WINDOW_MS) else none) ∧
    (∀ (p : Pad) (t : Nat), isArrivedForNow p = true →
      (sanitizePad p t).reportByDeadlineAt = none) ∧
    (∀ (p : Pad) (t : Nat), localBreakActive p t = true →
      isArrivedForNow p = false →
      (sanitizePad p t).reportByDeadlineAt = p.reportByDeadlineAt) := by
  refine ⟨?a, ?b, ?c⟩
  case a =>
    intro pad t
    simp [startReportTimerForNow, setStatus]
  case b =>
    intro p t harr
    simp only [sanitizePad, isArrivedForNow_set_status, harr, Bool.not_true,
      Bool.and_false, Bool.false_eq_true, if_false, if_true]
    split <;> rfl
  case c =>
    intro p t hbrk harr
    simp only [sanitizePad, isArrivedForNow_set_status,
      localBreakActive_set_status, hbrk, harr, Bool.not_true, Bool.not_false,
      Bool.false_and, Bool.true_and, Bool.false_eq_true, if_false]

/-- C6 witness: the amended guarantees evaluated at concrete pads. -/
theorem C6_deadline_behavior_witness :
    (startReportTimerForNow padOne 7).reportByDeadlineAt
      = (if padOne.now.isSome then some (7 + REPORT_WINDOW_MS) else none) ∧
    (isArrivedForNow padArrived = true ∧
      (sanitizePad padArrived 100).reportByDeadlineAt = none) ∧
    (localBreakActive padBreaky 100 = true ∧
      isArrivedForNow padBreaky = false ∧
      (sanitizePad padBreaky 100).reportByDeadlineAt
        = padBreaky.reportByDeadlineAt) :=
  ⟨C6_deadline_behavior.1 padOne 7,
   ⟨by decide, C6_deadline_behavior.2.1 padArrived 100 (by decide)⟩,
   ⟨by decide, by decide,
    C6_deadline_behavior.2.2 padBreaky 100 (by decide) (by decide)⟩⟩

/-- `undoForPad` with a non-empty stack pops the newest snapshot into
the board state. -/
lemma undoForPad_cons (padId : Int) (r : ServerState) (b : BoardState)
    (rest : List BoardState)
    (h : alistGet r.padHistory padId [] = b :: rest) :
    undoForPad padId r = (true,
      { r with
        boardState := b,
        padHistory := alistSet r.padHistory padId rest }) := by
  unfold undoForPad
  rw [h]

/-- C3 (refuting evaluation): `judge:arrived` on pad 1 at time 5 pushes
a snapshot of `srvQuiet`'s board (whose `updatedAt` is 0), and
`judge:undo` at time 777 pops it — but the handler then stamps the
restored board's `updatedAt` with the undo time, so the prior board is
NOT restored byte-for-byte. Moreover `admin:pad:add` mutates the board
while pushing no snapshot at all, so it cannot be undone. -/
theorem C3_undo_not_byte_for_byte :
    (handleJudgeUndo { role := .judge } (padPayload 1) 777
        (handleJudgeArrived { role := .judge } (padPayload 1) 5 srvQuiet)
      ).boardState ≠ srvQuiet.boardState ∧
    (handleJudgeUndo { role := .judge } (padPayload 1) 777
        (handleJudgeArrived { role := .judge } (padPayload 1) 5 srvQuiet)
      ).boardState = { srvQuiet.boardState with updatedAt := 777 } ∧
    (handleAdminPadAdd { role := .admin } none none 5 srvQuiet).boardState
      ≠ srvQuiet.boardState ∧
    (handleAdminPadAdd { role := .admin } none none 5 srvQuiet).padHistory
      = srvQuiet.padHistory := by
  exact ⟨by decide, by decide, by decide, by decide⟩

/-- C3 (amended): `judge:undo` after a snapshot-pushing mutating command
restores the board state except for its top-level `updatedAt`, which is
stamped with the undo time. (a) Whenever the undo stack's newest
snapshot is the pre-command board, `judge:undo` replaces the board with
that snapshot and stamps `updatedAt` with the undo time; (b) every
snapshotting mutation path — which ends in
`pushAudit … { snapshotForUndo padId s with boardState := board' }` —
indeed leaves the pre-command board as the newest snapshot, provided the
35-deep undo ring is not full. Commands that push no snapshot
(`admin:pad:add`, `admin:pad:delete`, `admin:clearAllQueues`) are not
covered: undo after them does not restore the pre-command state at
all (see the refuting evaluation). -/
theorem C3_undo_restores_except_updatedAt :
    (∀ (data : SockData) (payload : PadIdPayload) (padId : Int)
        (s r : ServerState) (tU : Nat),
      data.role = Role.judge →
      resolvePadId payload = some padId →
      alistGet r.padHistory padId []
        = s.boardState :: alistGet s.padHistory padId [] →
      (handleJudgeUndo data payload tU r).boardState
        = { s.boardState with updatedAt := tU }) ∧
    (∀ (padId : Int) (s : ServerState) (board' : BoardState) (ts : Nat)
        (pid : Option Int) (act det : String),
      (alistGet s.padHistory padId []).length < MAX_UNDO_PER_PAD →
      alistGet (pushAudit ts pid act det
          { snapshotForUndo padId s with boardState := board' }).padHistory
          padId []
        = s.boardState :: alistGet s.padHistory padId []) := by
  refine ⟨?undo, ?push⟩
  case undo =>
    intro data payload padId s r tU hrole hres hstack
    unfold handleJudgeUndo
    simp only [hrole, bne_self_eq_false, Bool.false_eq_true, if_false, hres]
    rw [undoForPad_cons padId r s.boardState _ hstack]
    simp [pushAudit_boardState]
  case push =>
    intro padId s board' ts pid act det hlen
    rw [pushAudit_padHistory]
    show alistGet (snapshotForUndo padId s).padHistory padId [] = _
    simp only [snapshotForUndo, alistGet_alistSet_self]
    rw [List.take_of_length_le (by simp only [List.length_cons]; omega)]

/-- C3 witness: the amended guarantees evaluated on `srvQuiet` after a
concrete `judge:arrived`. -/
theorem C3_undo_restores_witness :
    (handleJudgeUndo { role := .judge } (padPayload 1) 777
        (handleJudgeArrived { role := .judge } (padPayload 1) 5 srvQuiet)
      ).boardState = { srvQuiet.boardState with updatedAt := 777 } ∧
    alistGet (pushAudit 5 (some 1) "ARRIVED" "Marked arrived."
        { snapshotForUndo 1 srvQuiet with boardState := boardBreak }
      ).padHistory 1 []
      = srvQuiet.boardState :: alistGet srvQuiet.padHistory 1 [] := by
  refine ⟨C3_undo_restores_except_updatedAt.1 { role := .judge }
      (padPayload 1) 1 srvQuiet
      (handleJudgeArrived { role := .judge } (padPayload 1) 5 srvQuiet)
      777 rfl (by decide) (by decide),
    C3_undo_restores_except_updatedAt.2 1 srvQuiet boardBreak 5 (some 1)
      "ARRIVED" "Marked arrived." (by decide)⟩

/-- The competitor slots of a pad in queue order: `now`, `onDeck`, then
`standby`. -/
def padMembers (p : Pad) : List Team :=
  p.now.toList ++ p.onDeck.toList ++ p.standby

/-- The competitor ids a pad holds, in queue order. -/
def padIds (p : Pad) : List String := (padMembers p).map (fun t => t.id)

/-- `Nodup` transfers along lists with equal underlying multisets. -/
lemma nodup_of_coe_eq {l₁ l₂ : List String}
    (h : (l₁ : Multiset String) = (l₂ : Multiset String))
    (hnd : l₁.Nodup) : l₂.Nodup := by
  have h1 : Multiset.Nodup (l₁ : Multiset String) := by simpa using hnd
  rw [h] at h1
  simpa using h1

/-- Adding one fresh id to a duplicate-free pad keeps it duplicate-free,
stated through the underlying multisets. -/
lemma nodup_insert_aux {p' p : Pad} {tm : Team}
    (heq : ((padIds p' : List String) : Multiset String)
      = ((tm.id :: padIds p : List String) : Multiset String))
    (hnd : (padIds p).Nodup) (hfresh : tm.id ∉ padIds p) :
    (padIds p').Nodup :=
  nodup_of_coe_eq heq.symm (List.nodup_cons.mpr ⟨hfresh, hnd⟩)

/-- `applyPatchTeam` splits into its id step followed by the id-free
rest of the patch. -/
lemma applyPatchTeam_decompose (padCtx : Pad) (patch : TeamPatch)
    (t : Team) :
    applyPatchTeam padCtx patch t
      = applyPatchTeam padCtx { patch with id := none }
          (match patch.id with
           | none => t
           | some rawId =>
             if jsTrim rawId != "" && jsTrim rawId != t.id then
               if !(padCtx.now.map (·.id) == some (jsTrim rawId) ||
                   padCtx.onDeck.map (·.id) == some (jsTrim rawId) ||
                   padCtx.standby.any (·.id == jsTrim rawId)) then
                 { t with id := jsTrim rawId }
               else t
             else t) := rfl

/-- Every patch step other than the id step preserves the team id. -/
lemma applyPatchTeam_id_of_none (padCtx : Pad) (patch : TeamPatch)
    (u : Team) (h : patch.id = none) :
    (applyPatchTeam padCtx patch u).id = u.id := by
  unfold applyPatchTeam
  rcases hn : patch.name with _ | nm <;>
    rcases hu : patch.unit with _ | un <;>
    rcases hc : patch.category with _ | ct <;>
    rcases ht : patch.tag with _ | tg <;>
    simp only [h, hn, hu, hc, ht] <;> split_ifs <;> rfl

/-- The standby case of `extractTeamFromPad` preserves id-uniqueness
(it only filters the standby list). -/
lemma extractFromStandby_nodup (p : Pad) (tid : String)
    (hnd : (padIds p).Nodup) :
    (padIds (extractTeamFromPad.extractFromStandby p tid).2).Nodup := by
  unfold extractTeamFromPad.extractFromStandby
  rcases hf : p.standby.find? (fun t => t.id == tid) with _ | tm
  · simp only [hf]
    exact hnd
  · simp only [hf]
    have hnd' : (((p.now.toList ++ p.onDeck.toList) ++ p.standby).map
        (fun x => x.id)).Nodup := hnd
    have hsub : ((p.now.toList ++ p.onDeck.toList) ++
        p.standby.filter (fun x => x.id != tid)).Sublist
        ((p.now.toList ++ p.onDeck.toList) ++ p.standby) :=
      List.Sublist.append_left (List.filter_sublist _) _
    exact hnd'.sublist (List.Sublist.map _ hsub)

/-- The on-deck case of `extractTeamFromPad` preserves id-uniqueness. -/
lemma extractFromOnDeck_nodup (p : Pad) (tid : String)
    (hnd : (padIds p).Nodup) :
    (padIds (extractTeamFromPad.extractFromOnDeck p tid).2).Nodup := by
  unfold extractTeamFromPad.extractFromOnDeck
  rcases hod : p.onDeck with _ | od
  · simp only [hod]
    exact extractFromStandby_nodup p tid hnd
  · simp only [hod]
    by_cases he : (od.id == tid) = true
    · simp only [he, if_true]
      have hnd' : (((p.now.toList ++ p.onDeck.toList) ++ p.standby).map
          (fun x => x.id)).Nodup := hnd
      have hsub : ((p.now.toList ++ ([] : List Team)) ++ p.standby).Sublist
          ((p.now.toList ++ p.onDeck.toList) ++ p.standby) :=
        List.Sublist.append_right
          (List.Sublist.append_left (List.nil_sublist _) _) _
      exact hnd'.sublist (List.Sublist.map _ hsub)
    · simp only [he, Bool.false_eq_true, if_false]
      exact extractFromStandby_nodup p tid hnd

/-- A pad whose `now` slot is empty while `onDeck` is occupied. -/
def padGap : Pad := { padOne with now := none, standby := [] }

/-- Server globals holding just `padGap`. -/
def srvGap : ServerState :=
  { boardState := { pads := [padGap], nextPadId := 2, updatedAt := 0 },
    padHistory := [], audit := [], uidCounter := 0, commChannels := [] }

/-- C5 (refuting evaluation): `judge:addTeam` with the caller-supplied
id "A" — already held by pad 1's `now` occupant — appends a second "A"
to standby with no duplicate check; and inserting at NOW into a pad
whose `now` is empty but whose `onDeck` is occupied unshifts the on-deck
team into standby without vacating `onDeck`, duplicating it even though
the added id "Z" is fresh. -/
theorem C5_addTeam_creates_duplicate_ids :
    (getPadById (handleJudgeAddTeam { role := .judge } (padPayload 1) none
        (some "Alpha Clone") (some "A") none none none 5 srvQuiet
      ).boardState 1).map padIds = some ["A", "B", "C", "A"] ∧
    (getPadById (handleJudgeAddTeam { role := .judge } (padPayload 1)
        (some "NOW") (some "Newbie") (some "Z") none none none 5 srvGap
      ).boardState 1).map padIds = some ["Z", "B", "B"] ∧
    ¬ (["A", "B", "C", "A"] : List String).Nodup ∧
    ¬ (["Z", "B", "B"] : List String).Nodup := by
  exact ⟨by decide, by decide, by decide, by decide⟩

/-- C5 (amended): the per-pad queue primitives preserve id-uniqueness,
under the side conditions the code actually needs. Advancing the queue
(`Complete`), swapping now/onDeck, skipping the on-deck team, clearing
the pad, and extracting a team all preserve `Nodup` of the pad's ids;
inserting a team preserves it provided the caller-supplied id is fresh
AND (for NOW inserts) the pad's `now` is occupied or its `onDeck` is
empty; and `admin:queue:updateTeam`'s patch step changes a team's id
only to an id held by no member of the pad context (the duplicate
check), otherwise the id is kept. `judge:addTeam` enforces neither
side condition (see the refuting evaluation). -/
theorem C5_queue_ops_preserve_id_uniqueness :
    (∀ (p : Pad) (t : Nat), (padIds p).Nodup →
      (padIds (advanceWithoutComplete p t)).Nodup) ∧
    (∀ (p : Pad) (t : Nat), (padIds p).Nodup →
      (padIds (swapNowOnDeck p t)).Nodup) ∧
    (∀ (p : Pad) (t : Nat), (padIds p).Nodup →
      (padIds (skipOnDeck p t)).Nodup) ∧
    (∀ (p : Pad) (t : Nat), (padIds (clearPad p t)).Nodup) ∧
    (∀ (p : Pad) (tid : String), (padIds p).Nodup →
      (padIds (extractTeamFromPad p tid).2).Nodup) ∧
    (∀ (p : Pad) (t : Nat) (w : String) (tm : Team),
      (padIds p).Nodup → tm.id ∉ padIds p → (w == "NOW") = false →
      (padIds (insertTeamIntoPad p t w tm)).Nodup) ∧
    (∀ (p : Pad) (t : Nat) (tm : Team),
      (padIds p).Nodup → tm.id ∉ padIds p →
      (p.now.isSome = true ∨ p.onDeck = none) →
      (padIds (insertTeamIntoPad p t "NOW" tm)).Nodup) ∧
    (∀ (padCtx : Pad) (patch : TeamPatch) (tm : Team),
      (applyPatchTeam padCtx patch tm).id = tm.id ∨
        (applyPatchTeam padCtx patch tm).id ∉ padIds padCtx) := by
  refine ⟨?adv, ?swp, ?skp, ?clr, ?ext, ?insElse, ?insNow, ?patch⟩
  case adv =>
    intro p t hnd
    have hmem : padIds (advanceWithoutComplete p t)
        = ((p.onDeck.toList ++ p.standby.head?.toList) ++
            p.standby.tail).map (fun tm => tm.id) := rfl
    have hsplit : p.standby.head?.toList ++ p.standby.tail = p.standby := by
      cases p.standby <;> simp
    rw [hmem, List.append_assoc, hsplit]
    have hnd' : (((p.now.toList ++ p.onDeck.toList) ++ p.standby).map
        (fun tm => tm.id)).Nodup := hnd
    have hsub : (p.onDeck.toList ++ p.standby).Sublist
        ((p.now.toList ++ p.onDeck.toList) ++ p.standby) := by
      rw [List.append_assoc]
      exact List.sublist_append_right _ _
    exact hnd'.sublist (List.Sublist.map _ hsub)
  case swp =>
    intro p t hnd
    have hmem : padIds (swapNowOnDeck p t)
        = ((p.onDeck.toList ++ p.now.toList) ++ p.standby).map
            (fun tm => tm.id) := rfl
    rw [hmem]
    have hnd' : (((p.now.toList ++ p.onDeck.toList) ++ p.standby).map
        (fun tm => tm.id)).Nodup := hnd
    have hperm : ((p.now.toList ++ p.onDeck.toList) ++ p.standby).Perm
        ((p.onDeck.toList ++ p.now.toList) ++ p.standby) :=
      List.Perm.append_right p.standby List.perm_append_comm
    exact (List.Perm.map (fun tm => tm.id) hperm).nodup_iff.mp hnd'
  case skp =>
    intro p t hnd
    rcases hone : p.onDeck with _ | moved
    · have heq : skipOnDeck p t = p := by
        unfold skipOnDeck
        rw [hone]
      rw [heq]
      exact hnd
    · rcases hsb : p.standby with _ | ⟨a, rest⟩ <;>
        refine nodup_of_coe_eq ?_ hnd <;>
        · unfold skipOnDeck
          simp only [hone, hsb, padIds, padMembers, List.head?_cons,
            List.head?_nil, List.tail_cons, List.tail_nil,
            Option.toList_some, Option.toList_none, List.map_append,
            List.map_cons, List.map_nil, List.nil_append, List.append_nil,
            ← Multiset.coe_add, ← Multiset.cons_coe,
            ← Multiset.singleton_add, Multiset.coe_nil]
          try abel
  case clr =>
    intro p t
    exact List.nodup_nil
  case ext =>
    intro p tid hnd
    unfold extractTeamFromPad
    rcases hnw : p.now with _ | n
    · simp only [hnw]
      exact extractFromOnDeck_nodup p tid hnd
    · simp only [hnw]
      by_cases he : (n.id == tid) = true
      · simp only [he, if_true]
        have hnd' : (((p.now.toList ++ p.onDeck.toList) ++ p.standby).map
            (fun x => x.id)).Nodup := hnd
        have hsub : ((([] : List Team) ++ p.onDeck.toList) ++
            p.standby).Sublist
            ((p.now.toList ++ p.onDeck.toList) ++ p.standby) :=
          List.Sublist.append_right
            (List.Sublist.append_right (List.nil_sublist _) _) _
        exact hnd'.sublist (List.Sublist.map _ hsub)
      · simp only [he, Bool.false_eq_true, if_false]
        exact extractFromOnDeck_nodup p tid hnd
  case insElse =>
    intro p t w tm hnd hfresh hw
    by_cases h2 : (w == "ONDECK") = true
    · rcases hod : p.onDeck with _ | od <;>
        refine nodup_insert_aux ?_ hnd hfresh <;>
        · simp only [insertTeamIntoPad, hw, h2, hod, Bool.false_eq_true,
            if_false, if_true, padIds, padMembers, Option.toList_some,
            Option.toList_none, List.map_append, List.map_cons,
            List.map_nil, List.nil_append, List.append_nil,
            ← Multiset.coe_add, ← Multiset.cons_coe,
            ← Multiset.singleton_add, Multiset.coe_nil]
          abel
    · have h2' : (w == "ONDECK") = false := by simpa using h2
      refine nodup_insert_aux ?_ hnd hfresh
      simp only [insertTeamIntoPad, hw, h2', Bool.false_eq_true, if_false,
        padIds, padMembers, Option.toList_some, Option.toList_none,
        List.map_append, List.map_cons, List.map_nil, List.nil_append,
        List.append_nil, ← Multiset.coe_add, ← Multiset.cons_coe,
        ← Multiset.singleton_add, Multiset.coe_nil]
      abel
  case insNow =>
    intro p t tm hnd hfresh hguard
    rcases hnw : p.now with _ | n
    · have hod : p.onDeck = none := by
        rcases hguard with h | h
        · rw [hnw] at h
          simp at h
        · exact h
      refine nodup_insert_aux ?_ hnd hfresh
      simp only [insertTeamIntoPad, beq_self_eq_true, if_true, hnw, hod,
        startReportTimerForNow, clearArrivalForNow, setStatus, padIds,
        padMembers, Option.toList_some, Option.toList_none,
        List.map_append, List.map_cons, List.map_nil, List.nil_append,
        List.append_nil, ← Multiset.coe_add, ← Multiset.cons_coe,
        ← Multiset.singleton_add, Multiset.coe_nil]
      abel
    · rcases hod : p.onDeck with _ | od <;>
        refine nodup_insert_aux ?_ hnd hfresh <;>
        · simp only [insertTeamIntoPad, beq_self_eq_true, if_true, hnw,
            hod, startReportTimerForNow, clearArrivalForNow, setStatus,
            padIds, padMembers, Option.toList_some, Option.toList_none,
            List.map_append, List.map_cons, List.map_nil, List.nil_append,
            List.append_nil, ← Multiset.coe_add, ← Multiset.cons_coe,
            ← Multiset.singleton_add, Multiset.coe_nil]
          abel
  case patch =>
    intro padCtx patch tm
    rw [applyPatchTeam_decompose]
    rcases hid : patch.id with _ | rawId
    · simp only [hid]
      left
      exact applyPatchTeam_id_of_none padCtx _ tm rfl
    · simp only [hid]
      by_cases h1 : (jsTrim rawId != "" && jsTrim rawId != tm.id) = true
      · simp only [h1, if_true]
        by_cases hdup : (padCtx.now.map (·.id) == some (jsTrim rawId) ||
            padCtx.onDeck.map (·.id) == some (jsTrim rawId) ||
            padCtx.standby.any (·.id == jsTrim rawId)) = true
        · simp only [hdup, Bool.not_true, Bool.false_eq_true, if_false]
          left
          exact applyPatchTeam_id_of_none padCtx _ tm rfl
        · have hdup' : (padCtx.now.map (·.id) == some (jsTrim rawId) ||
              padCtx.onDeck.map (·.id) == some (jsTrim rawId) ||
              padCtx.standby.any (·.id == jsTrim rawId)) = false := by
            simpa using hdup
          simp only [hdup', Bool.not_false, if_true]
          right
          rw [applyPatchTeam_id_of_none padCtx _ _ rfl]
          show jsTrim rawId ∉ padIds padCtx
          simp only [Bool.or_eq_false_iff, beq_eq_false_iff_ne,
            List.any_eq_false, and_assoc] at hdup'
          obtain ⟨ha, hb, hc⟩ := hdup'
          intro hmem
          simp only [padIds, padMembers, List.map_append, List.mem_append,
            List.mem_map, Option.mem_toList, Option.mem_def] at hmem
          rcases hmem with ((⟨x, hx, hxid⟩ | ⟨x, hx, hxid⟩) | ⟨x, hx, hxid⟩)
          · exact ha (by simp [hx, hxid])
          · exact hb (by simp [hx, hxid])
          · exact hc x hx (by simp [hxid])
      · have h1' : (jsTrim rawId != "" && jsTrim rawId != tm.id) = false := by
          simpa using h1
        simp only [h1', Bool.false_eq_true, if_false]
        left
        exact applyPatchTeam_id_of_none padCtx _ tm rfl

/-- A fresh team used by the C5 witness. -/
def teamZ : Team := { id := "Z", name := "Zed" }

/-- C5 witness: the amended guarantees evaluated on `padOne`. -/
theorem C5_queue_ops_witness :
    (padIds padOne).Nodup ∧
    teamZ.id ∉ padIds padOne ∧
    (padIds (advanceWithoutComplete padOne 3)).Nodup ∧
    (padIds (insertTeamIntoPad padOne 3 "END" teamZ)).Nodup ∧
    (padIds (insertTeamIntoPad padOne 3 "NOW" teamZ)).Nodup ∧
    ((applyPatchTeam padOne { id := some "B" } teamC).id = teamC.id ∨
      (applyPatchTeam padOne { id := some "B" } teamC).id ∉ padIds padOne) := by
  refine ⟨by decide, by decide,
    C5_queue_ops_preserve_id_uniqueness.1 padOne 3 (by decide),
    C5_queue_ops_preserve_id_uniqueness.2.2.2.2.2.1 padOne 3 "END" teamZ
      (by decide) (by decide) (by decide),
    C5_queue_ops_preserve_id_uniqueness.2.2.2.2.2.2.1 padOne 3 teamZ
      (by decide) (by decide) (Or.inl (by decide)),
    C5_queue_ops_preserve_id_uniqueness.2.2.2.2.2.2.2 padOne
      { id := some "B" } teamC⟩

end DrillBoard
